import Mathlib

/-!
Shallow embedding of the PMX binary-model decoder (`src/reader.rs` of
`LNSEAB/pmx_rs`) and proofs about it.

Modelling conventions:
* a byte is a `Nat` (intended range `0 ≤ b < 256`; theorems that depend on
  the range carry the hypothesis explicitly);
* the input stream is the full byte list `d : Bytes` together with a cursor
  position `p : Nat`; a decoder is `M α = Bytes → Nat → Except Error (α × Nat)`
  returning the decoded value and the new cursor, mirroring sequential
  `std::io::Read` consumption;
* `f32` values are carried as their little-endian 32-bit pattern (`F32 := Nat`);
  the decoder never computes with floats, it only transports them;
* text decoding (`String::from_utf16_lossy` / `String::from_utf8_lossy`) is a
  total lossy function of the raw code-unit sequence; we keep that sequence
  (`PmxString`), which keeps the embedding faithful to what was consumed and
  to the fact that text decoding cannot fail. The UTF-16 arm keeps the
  `len / 2` byte-pair reinterpretation of the source (a trailing odd byte is
  dropped).
-/

/-- A byte of the input stream (intended range `0..256`). -/
abbrev Bytes := List Nat

/-- Little-endian unsigned value of a byte string (`uN::from_le_bytes`). -/
def leVal : Bytes → Nat
  | [] => 0
  | b :: rest => b + 256 * leVal rest

/-- Reinterpretation of a `w`-byte little-endian unsigned value as the signed
(two's-complement) value, i.e. `iN::from_le_bytes` composed with `leVal`. -/
def sint (w v : Nat) : Int :=
  if v < 2 ^ (8 * w - 1) then (v : Int) else (v : Int) - 2 ^ (8 * w)

/-- Specification-side reading of a byte string as a little-endian
two's-complement signed integer: all bytes but the last are unsigned
positional digits, the last byte carries the sign. -/
def sleSpec : Bytes → Int
  | [] => 0
  | [b] => if b < 128 then (b : Int) else (b : Int) - 256
  | b :: rest => (b : Int) + 256 * sleSpec rest

/-- Error type of the reader (`enum Error`, reader.rs:4-12). -/
inductive Error where
  | UnsupportedVersion
  | InvalidData (msg : String)
  | Io
deriving DecidableEq, Repr

/-- A decoding step: from the full stream and a cursor, either an error or a
value together with the advanced cursor. -/
def M (α : Type) : Type := Bytes → Nat → Except Error (α × Nat)

/-- Monadic return for `M`. -/
def mpure {α : Type} (a : α) : M α := fun _ p => .ok (a, p)

/-- Monadic sequencing for `M`: run `m`, then feed its value and cursor to `f`;
errors propagate (the `?` operator of the source). -/
def mbind {α β : Type} (m : M α) (f : α → M β) : M β := fun d p =>
  match m d p with
  | .ok (a, q) => f a d q
  | .error e => .error e

/-- Abort the decode with an error (an `Err(...)` return in the source). -/
def mthrow {α : Type} (e : Error) : M α := fun _ _ => .error e

/-- Read exactly `k` bytes and advance the cursor (`read_exact`, the only
primitive touching the stream; a short read is an I/O error, reader.rs:75-79). -/
def readBin (k : Nat) : M Bytes := fun d p =>
  if p + k ≤ d.length then .ok ((d.drop p).take k, p + k) else .error Error.Io

/-- Run a record decoder `n` times in sequence, collecting the results in
order (the `(0..len).map(|_| ...).collect()` pattern of the source). -/
def mcount {α : Type} (n : Nat) (m : M α) : M (List α) :=
  match n with
  | 0 => mpure []
  | Nat.succ k => mbind m fun a => mbind (mcount k m) fun l => mpure (a :: l)

/-- Text encoding selector of the header (`Encoding`). -/
inductive Encoding where
  | Utf16
  | Utf8
deriving DecidableEq, Repr

/-- Group the byte buffer into little-endian 16-bit code units, as the
`from_raw_parts(. as *const u16, len / 2)` reinterpretation does
(reader.rs:130-133); a trailing odd byte is dropped. -/
def pairUnits : Bytes → List Nat
  | b0 :: b1 :: rest => (b0 + 256 * b1) :: pairUnits rest
  | _ => []

/-- A decoded string, kept as the code-unit sequence handed to the (total)
lossy text decoder of the standard library. -/
inductive PmxString where
  | utf16 (units : List Nat)
  | utf8 (bytes : List Nat)
deriving DecidableEq, Repr

/-- Total text decoding of a raw byte payload under the session encoding
(`String::from_utf16_lossy` / `String::from_utf8_lossy` are total: malformed
code units are replaced, never rejected). -/
def decodeText (e : Encoding) (bs : Bytes) : PmxString :=
  match e with
  | .Utf16 => .utf16 (pairUnits bs)
  | .Utf8 => .utf8 bs

/-- IEEE-754 single-precision value, kept as its little-endian bit pattern. -/
abbrev F32 := Nat

/-- Two consecutive `f32` values (`[f32; 2]`). -/
abbrev Vec2 := F32 × F32

/-- Three consecutive `f32` values (`[f32; 3]`). -/
abbrev Vec3 := F32 × F32 × F32

/-- Four consecutive `f32` values (`[f32; 4]`). -/
abbrev Vec4 := F32 × F32 × F32 × F32

/-- Decoded file header (struct `Header`; sizes and counts as plain `Nat`). -/
structure Header where
  version : F32
  encoding : Encoding
  extended_uv : Nat
  vertex_index_size : Nat
  texture_index_size : Nat
  material_index_size : Nat
  bone_index_size : Nat
  morph_index_size : Nat
  rigid_index_size : Nat
deriving DecidableEq, Repr

/-- Model metadata strings (struct `ModelInfo`). -/
structure ModelInfo where
  name : PmxString
  name_en : PmxString
  comment : PmxString
  comment_en : PmxString
deriving DecidableEq, Repr

/-- Single-bone skin weight (struct `Bdef1`). -/
structure Bdef1 where
  bone : Option Nat
deriving DecidableEq, Repr

/-- Two-bone skin weight (struct `Bdef2`). -/
structure Bdef2 where
  bones : Option Nat × Option Nat
  weight : F32
deriving DecidableEq, Repr

/-- Four-bone skin weight (struct `Bdef4`). -/
structure Bdef4 where
  bones : Option Nat × Option Nat × Option Nat × Option Nat
  weights : Vec4
deriving DecidableEq, Repr

/-- Spherical-deformation skin weight (struct `Sdef`). -/
structure Sdef where
  bones : Option Nat × Option Nat
  weight : F32
  c : Vec3
  r0 : Vec3
  r1 : Vec3
deriving DecidableEq, Repr

/-- Vertex deformation weight variants (enum `Weight`). -/
inductive Weight where
  | Bdef1 (v : Bdef1)
  | Bdef2 (v : Bdef2)
  | Bdef4 (v : Bdef4)
  | Sdef (v : Sdef)
deriving DecidableEq, Repr

/-- Decoded vertex (struct `Vertex`). -/
structure Vertex where
  position : Vec3
  normal : Vec3
  uv : Vec2
  extended_uv : List Vec4
  weight : Weight
  edge_ratio : F32
deriving DecidableEq, Repr

/-- Sphere-map blend mode (enum `SphereMode`). -/
inductive SphereMode where
  | None
  | Mul
  | Add
  | SubTexture
deriving DecidableEq, Repr

/-- Toon reference (enum `Toon`). -/
inductive Toon where
  | Texture (idx : Option Nat)
  | Shared (id : Nat)
deriving DecidableEq, Repr

/-- Decoded material (struct `Material`). -/
structure Material where
  name : PmxString
  name_en : PmxString
  diffuse : Vec4
  specular : Vec3
  specular_power : F32
  ambient : Vec3
  both : Bool
  ground_shadow : Bool
  self_shadow_map : Bool
  self_shadow : Bool
  edge : Bool
  edge_color : Vec4
  edge_size : F32
  texture : Option Nat
  sphere : Option Nat
  sphere_mode : SphereMode
  toon : Toon
  memo : PmxString
  index_count : Nat
deriving DecidableEq, Repr

/-- Bone connection terminus (enum `ConnectedTo`). -/
inductive ConnectedTo where
  | Offset (v : Vec3)
  | Bone (b : Option Nat)
deriving DecidableEq, Repr

/-- Inherited-transform descriptor of a bone (struct `Addition`; the source
field `local` is a reserved word in Lean, kept as `local_flag`). -/
structure Addition where
  rotation : Bool
  translation : Bool
  local_flag : Bool
  bone : Option Nat
  ratio : F32
deriving DecidableEq, Repr

/-- Local pole frame of a bone (struct `LocalPole`). -/
structure LocalPole where
  x : Vec3
  z : Vec3
deriving DecidableEq, Repr

/-- Lower/upper angle-limit pair (struct `AngleLimit`). -/
structure AngleLimit where
  lower : Vec3
  upper : Vec3
deriving DecidableEq, Repr

/-- One IK chain link (struct `IkLink`). -/
structure IkLink where
  bone : Option Nat
  limits : Option AngleLimit
deriving DecidableEq, Repr

/-- IK descriptor of a bone (struct `Ik`). -/
structure Ik where
  bone : Option Nat
  loop_count : Nat
  angle : F32
  links : List IkLink
deriving DecidableEq, Repr

/-- Decoded bone (struct `Bone`). -/
structure Bone where
  name : PmxString
  name_en : PmxString
  position : Vec3
  parent : Option Nat
  deform_hierarchy : Int
  connected_to : ConnectedTo
  rotatable : Bool
  translatable : Bool
  visibility : Bool
  operable : Bool
  ik : Option Ik
  addition : Option Addition
  after_physics : Bool
  fixed_pole : Option Vec3
  local_pole : Option LocalPole
  external_parent : Option Nat
deriving DecidableEq, Repr

/-- Morph UI panel (enum `Panel`). -/
inductive Panel where
  | Reserved
  | Eyebrow
  | Eye
  | Mouth
  | Other
deriving DecidableEq, Repr

/-- Group-morph element (struct `morph::Group`). -/
structure MorphGroup where
  morph : Option Nat
  ratio : F32
deriving DecidableEq, Repr

/-- Vertex-morph element (struct `morph::Vertex`). -/
structure MorphVertex where
  vertex : Option Nat
  offset : Vec3
deriving DecidableEq, Repr

/-- Bone-morph element (struct `morph::Bone`). -/
structure MorphBone where
  bone : Option Nat
  offset : Vec3
  rotation : Vec4
deriving DecidableEq, Repr

/-- UV-morph element (struct `morph::Uv`). -/
structure MorphUv where
  vertex : Option Nat
  offset : Vec4
deriving DecidableEq, Repr

/-- Material-morph operation (enum `morph::MaterialOp`). -/
inductive MaterialOp where
  | Mul
  | Add
deriving DecidableEq, Repr

/-- Material-morph element (struct `morph::Material`). -/
structure MorphMaterial where
  material : Option Nat
  op : MaterialOp
  diffuse : Vec4
  specular : Vec3
  specular_power : F32
  ambient : Vec3
  edge_color : Vec4
  edge_size : F32
  texture : Vec4
  sphere : Vec4
  toon : Vec4
deriving DecidableEq, Repr

/-- Morph payload variants (enum `morph::Kind`; the misspelt constructor
`Maerial` is kept verbatim from the source). -/
inductive MorphKind where
  | Group (elems : List MorphGroup)
  | Vertex (elems : List MorphVertex)
  | Bone (elems : List MorphBone)
  | Uv (elems : List MorphUv)
  | ExtendedUv (channel : Nat) (elems : List MorphUv)
  | Maerial (elems : List MorphMaterial)
deriving DecidableEq, Repr

/-- Decoded morph (struct `Morph`). -/
structure Morph where
  name : PmxString
  name_en : PmxString
  panel : Panel
  kind : MorphKind
deriving DecidableEq, Repr

/-- Display-group element (enum `DisplayElement`). -/
inductive DisplayElement where
  | Bone (b : Option Nat)
  | Morph (m : Option Nat)
deriving DecidableEq, Repr

/-- Decoded display group (struct `DisplayGroup`). -/
structure DisplayGroup where
  name : PmxString
  name_en : PmxString
  special : Bool
  elements : List DisplayElement
deriving DecidableEq, Repr

/-- Rigid-body collision shape (enum `rigid::Shape`). -/
inductive RigidShape where
  | Sphere
  | Box
  | Capsule
deriving DecidableEq, Repr

/-- Rigid-body simulation method (enum `rigid::Method`). -/
inductive RigidMethod where
  | Static
  | Dynamic
  | DynamicWithBone
deriving DecidableEq, Repr

/-- Decoded rigid body (struct `Rigid`). -/
structure Rigid where
  name : PmxString
  name_en : PmxString
  bone : Option Nat
  group : Nat
  non_collision_groups : Nat
  shape : RigidShape
  size : Vec3
  position : Vec3
  rotation : Vec3
  mass : F32
  dump_translation : F32
  dump_rotation : F32
  repulsive : F32
  friction : F32
  method : RigidMethod
deriving DecidableEq, Repr

/-- Decoded joint (struct `Joint`). -/
structure Joint where
  name : PmxString
  name_en : PmxString
  rigids : Option Nat × Option Nat
  position : Vec3
  rotation : Vec3
  limit_translation : AngleLimit
  limit_rotation : AngleLimit
  spring_translation : Vec3
  spring_rotation : Vec3
deriving DecidableEq, Repr

/-- The fully decoded model (struct `Pmx`; textures are path strings). -/
structure Pmx where
  header : Header
  model_info : ModelInfo
  vertices : List Vertex
  faces : List Nat
  textures : List PmxString
  materials : List Material
  bones : List Bone
  morphs : List Morph
  display_groups : List DisplayGroup
  rigids : List Rigid
  joints : List Joint
deriving DecidableEq, Repr

/-- Session configuration of the reader: the encoding, the extra-UV channel
count and the six scratch-buffer lengths, set once from the header
(struct `Reader` fields, reader.rs:20-30, populated in `read`,
reader.rs:50-59). Index fields hold the length of the corresponding
scratch buffer. -/
structure Cfg where
  encoding : Encoding
  extended_uv : Nat
  vertex_index : Nat
  tex_index : Nat
  mat_index : Nat
  bone_index : Nat
  morph_index : Nat
  rig_index : Nat
deriving DecidableEq, Repr

/-- The session configuration produced by `Reader::read` from a decoded
header (reader.rs:52-59). -/
def cfgOf (h : Header) : Cfg :=
  { encoding := h.encoding
    extended_uv := h.extended_uv
    vertex_index := h.vertex_index_size
    tex_index := h.texture_index_size
    mat_index := h.material_index_size
    bone_index := h.bone_index_size
    morph_index := h.morph_index_size
    rig_index := h.rigid_index_size }

namespace Reader

/-- `read_u8` (reader.rs:81-83). -/
def read_u8 : M Nat :=
  mbind (readBin 1) fun bs => mpure (leVal bs)

/-- `read_u16` (reader.rs:85-88). -/
def read_u16 : M Nat :=
  mbind (readBin 2) fun bs => mpure (leVal bs)

/-- `read_u32` (reader.rs:90-93). -/
def read_u32 : M Nat :=
  mbind (readBin 4) fun bs => mpure (leVal bs)

/-- `read_i32` (reader.rs:95-98): four bytes as a signed 32-bit value. -/
def read_i32 : M Int :=
  mbind (readBin 4) fun bs => mpure (sint 4 (leVal bs))

/-- `read_f32` (reader.rs:100-103): the 32-bit pattern is transported, never
computed with. -/
def read_f32 : M F32 :=
  mbind (readBin 4) fun bs => mpure (leVal bs)

/-- `read_vec2` (reader.rs:105-115, `read_vec::<2>` specialized). -/
def read_vec2 : M Vec2 :=
  mbind read_f32 fun a =>
  mbind read_f32 fun b =>
  mpure (a, b)

/-- `read_vec3` (reader.rs:117-119, `read_vec::<3>` specialized). -/
def read_vec3 : M Vec3 :=
  mbind read_f32 fun a =>
  mbind read_f32 fun b =>
  mbind read_f32 fun c =>
  mpure (a, b, c)

/-- `read_vec4` (reader.rs:121-123, `read_vec::<4>` specialized). -/
def read_vec4 : M Vec4 :=
  mbind read_f32 fun a =>
  mbind read_f32 fun b =>
  mbind read_f32 fun c =>
  mbind read_f32 fun e =>
  mpure (a, b, c, e)

/-- `read_string` (reader.rs:125-137): a 32-bit byte length, that many raw
bytes, then the total lossy text decode under the session encoding. -/
def read_string (c : Cfg) : M PmxString :=
  mbind read_u32 fun len =>
  mbind (readBin len) fun bs =>
  mpure (decodeText c.encoding bs)

/-- `read_signed_index` (reader.rs:139-159): `w` bytes as a little-endian
signed integer of that width; negative means absent. The source matches on
the scratch-buffer length and marks other widths `unreachable!()` (the header
only ever configures 1, 2 or 4); the final arm here is that dead branch. -/
def read_signed_index (w : Nat) : M (Option Nat) :=
  mbind (readBin w) fun bs =>
  match w with
  | 1 => mpure (if 0 ≤ sint 1 (leVal bs) then some (sint 1 (leVal bs)).toNat else none)
  | 2 => mpure (if 0 ≤ sint 2 (leVal bs) then some (sint 2 (leVal bs)).toNat else none)
  | 4 => mpure (if 0 ≤ sint 4 (leVal bs) then some (sint 4 (leVal bs)).toNat else none)
  | _ => mpure none

/-- `read_vertex_index` (reader.rs:161-179): unsigned at widths 1 and 2
(always a concrete index), signed at width 4 (negative means absent). The
final arm is the `unreachable!()` dead branch, as in `read_signed_index`. -/
def read_vertex_index (c : Cfg) : M (Option Nat) :=
  mbind (readBin c.vertex_index) fun bs =>
  match c.vertex_index with
  | 1 => mpure (some (leVal bs))
  | 2 => mpure (some (leVal bs))
  | 4 => mpure (if 0 ≤ sint 4 (leVal bs) then some (sint 4 (leVal bs)).toNat else none)
  | _ => mpure none

/-- `read_texture_index` (reader.rs:181-186). -/
def read_texture_index (c : Cfg) : M (Option Nat) :=
  read_signed_index c.tex_index

/-- `read_material_index` (reader.rs:188-193). -/
def read_material_index (c : Cfg) : M (Option Nat) :=
  read_signed_index c.mat_index

/-- `read_bone_index` (reader.rs:195-200). -/
def read_bone_index (c : Cfg) : M (Option Nat) :=
  read_signed_index c.bone_index

/-- `read_morph_index` (reader.rs:202-207). -/
def read_morph_index (c : Cfg) : M (Option Nat) :=
  read_signed_index c.morph_index

/-- `read_rigid_index` (reader.rs:209-214). -/
def read_rigid_index (c : Cfg) : M (Option Nat) :=
  read_signed_index c.rig_index

/-- `read_index_size` (reader.rs:216-222): a width byte, validated in {1,2,4}. -/
def read_index_size : M Nat :=
  mbind read_u8 fun v =>
  match v with
  | 1 => mpure 1
  | 2 => mpure 2
  | 4 => mpure 4
  | _ => mthrow (Error.InvalidData "read_index_size")

/-- `header` (reader.rs:224-250): magic tag, float version (never checked),
config-byte count (must be 8), encoding selector, extra-UV count (never
range-checked) and the six index widths. -/
def header : M Header :=
  mbind (readBin 4) fun magic =>
  if magic = [80, 77, 88, 32] then
    mbind read_f32 fun version =>
    mbind read_u8 fun bytes =>
    if bytes = 8 then
      mbind read_u8 fun encv =>
      mbind
        (match encv with
         | 0 => mpure Encoding.Utf16
         | 1 => mpure Encoding.Utf8
         | _ => mthrow (Error.InvalidData "header::encoding")) fun encoding =>
      mbind read_u8 fun extended_uv =>
      mbind read_index_size fun vertex_index_size =>
      mbind read_index_size fun texture_index_size =>
      mbind read_index_size fun material_index_size =>
      mbind read_index_size fun bone_index_size =>
      mbind read_index_size fun morph_index_size =>
      mbind read_index_size fun rigid_index_size =>
      mpure { version, encoding, extended_uv, vertex_index_size, texture_index_size,
              material_index_size, bone_index_size, morph_index_size, rigid_index_size }
    else mthrow (Error.InvalidData "header::bytes")
  else mthrow (Error.InvalidData "magic number")

/-- `model_info` (reader.rs:252-259). -/
def model_info (c : Cfg) : M ModelInfo :=
  mbind (read_string c) fun name =>
  mbind (read_string c) fun name_en =>
  mbind (read_string c) fun comment =>
  mbind (read_string c) fun comment_en =>
  mpure { name, name_en, comment, comment_en }

/-- The weight-kind match of `vertex` (reader.rs:268-298), with the already
read tag byte as argument; an unrecognized tag is a structural error. -/
def vertex_weight (c : Cfg) (t : Nat) : M Weight :=
  match t with
  | 0 =>
    mbind (read_bone_index c) fun bone =>
    mpure (Weight.Bdef1 { bone })
  | 1 =>
    mbind (read_bone_index c) fun b0 =>
    mbind (read_bone_index c) fun b1 =>
    mbind read_f32 fun weight =>
    mpure (Weight.Bdef2 { bones := (b0, b1), weight })
  | 2 =>
    mbind (read_bone_index c) fun b0 =>
    mbind (read_bone_index c) fun b1 =>
    mbind (read_bone_index c) fun b2 =>
    mbind (read_bone_index c) fun b3 =>
    mbind read_f32 fun w0 =>
    mbind read_f32 fun w1 =>
    mbind read_f32 fun w2 =>
    mbind read_f32 fun w3 =>
    mpure (Weight.Bdef4 { bones := (b0, b1, b2, b3), weights := (w0, w1, w2, w3) })
  | 3 =>
    mbind (read_bone_index c) fun b0 =>
    mbind (read_bone_index c) fun b1 =>
    mbind read_f32 fun weight =>
    mbind read_vec3 fun cv =>
    mbind read_vec3 fun r0 =>
    mbind read_vec3 fun r1 =>
    mpure (Weight.Sdef { bones := (b0, b1), weight, c := cv, r0, r1 })
  | _ => mthrow (Error.InvalidData "vertex::weight")

/-- `vertex` (reader.rs:261-308). -/
def vertex (c : Cfg) : M Vertex :=
  mbind read_vec3 fun position =>
  mbind read_vec3 fun normal =>
  mbind read_vec2 fun uv =>
  mbind (mcount c.extended_uv read_vec4) fun extended_uv =>
  mbind read_u8 fun t =>
  mbind (vertex_weight c t) fun weight =>
  mbind read_f32 fun edge_ratio =>
  mpure { position, normal, uv, extended_uv, weight, edge_ratio }

/-- `vertices` (reader.rs:310-313). -/
def vertices (c : Cfg) : M (List Vertex) :=
  mbind read_u32 fun len =>
  mcount len (vertex c)

/-- `faces` (reader.rs:315-318): a u32 count, then that many u32 values; no
divisibility-by-3 validation. -/
def faces : M (List Nat) :=
  mbind read_u32 fun len =>
  mcount len read_u32

/-- `textures` (reader.rs:320-323). -/
def textures (c : Cfg) : M (List PmxString) :=
  mbind read_u32 fun len =>
  mcount len (read_string c)

/-- The sphere-mode match of `material` (reader.rs:342-348), with the tag
byte as argument. -/
def sphere_mode_of (t : Nat) : M SphereMode :=
  match t with
  | 0 => mpure SphereMode.None
  | 1 => mpure SphereMode.Mul
  | 2 => mpure SphereMode.Add
  | 3 => mpure SphereMode.SubTexture
  | _ => mthrow (Error.InvalidData "material::sphere_mode")

/-- The toon match of `material` (reader.rs:349-353), with the tag byte as
argument. -/
def toon_of (c : Cfg) (t : Nat) : M Toon :=
  match t with
  | 0 =>
    mbind (read_texture_index c) fun idx =>
    mpure (Toon.Texture idx)
  | 1 =>
    mbind read_u8 fun id =>
    mpure (Toon.Shared id)
  | _ => mthrow (Error.InvalidData "material::toon")

/-- The index-count validation finishing `material` (reader.rs:355-379): the
already assembled record is rejected when its `index_count` is not a
multiple of 3. -/
def material_finish (m : Material) : M Material :=
  if m.index_count % 3 ≠ 0 then mthrow (Error.InvalidData "material::index_count")
  else mpure m

/-- `material` (reader.rs:325-380). -/
def material (c : Cfg) : M Material :=
  mbind (read_string c) fun name =>
  mbind (read_string c) fun name_en =>
  mbind read_vec4 fun diffuse =>
  mbind read_vec3 fun specular =>
  mbind read_f32 fun specular_power =>
  mbind read_vec3 fun ambient =>
  mbind read_u8 fun flags =>
  mbind read_vec4 fun edge_color =>
  mbind read_f32 fun edge_size =>
  mbind (read_texture_index c) fun texture =>
  mbind (read_texture_index c) fun sphere =>
  mbind read_u8 fun smt =>
  mbind (sphere_mode_of smt) fun sphere_mode =>
  mbind read_u8 fun tt =>
  mbind (toon_of c tt) fun toon =>
  mbind (read_string c) fun memo =>
  mbind read_u32 fun index_count =>
  material_finish
    { name, name_en, diffuse, specular, specular_power, ambient,
      both := flags &&& 0x01 == 0x01,
      ground_shadow := flags &&& 0x02 == 0x02,
      self_shadow_map := flags &&& 0x04 == 0x04,
      self_shadow := flags &&& 0x08 == 0x08,
      edge := flags &&& 0x10 == 0x10,
      edge_color, edge_size, texture, sphere, sphere_mode, toon, memo, index_count }

/-- `materials` (reader.rs:382-385). -/
def materials (c : Cfg) : M (List Material) :=
  mbind read_u32 fun len =>
  mcount len (material c)

/-- The connection-terminus match of `bone` (reader.rs:394-398): the lowest
flag bit selects an offset vector or a bone link; the error arm is present in
the source even though `flags & 1` can only be 0 or 1. -/
def bone_connected_to (c : Cfg) (flags : Nat) : M ConnectedTo :=
  match flags &&& 0x0001 with
  | 0 =>
    mbind read_vec3 fun v =>
    mpure (ConnectedTo.Offset v)
  | 1 =>
    mbind (read_bone_index c) fun b =>
    mpure (ConnectedTo.Bone b)
  | _ => mthrow (Error.InvalidData "bone::connected_to")

/-- The inherited-transform block of `bone` (reader.rs:403-420): read only
when the rotation or translation inheritance bit is set. -/
def bone_addition (c : Cfg) (flags : Nat) : M (Option Addition) :=
  if !((flags &&& 0x0100 == 0x0100) || (flags &&& 0x0200 == 0x0200)) then mpure none
  else
    mbind (read_bone_index c) fun bone =>
    mbind read_f32 fun ratio =>
    mpure (some
      { rotation := flags &&& 0x0100 == 0x0100
        translation := flags &&& 0x0200 == 0x0200
        local_flag := flags &&& 0x0080 == 0x0080
        bone
        ratio })

/-- The fixed-pole block of `bone` (reader.rs:421-423). -/
def bone_fixed_pole (flags : Nat) : M (Option Vec3) :=
  if flags &&& 0x0400 == 0x0400 then
    mbind read_vec3 fun v =>
    mpure (some v)
  else mpure none

/-- The local-pole block of `bone` (reader.rs:424-431). -/
def bone_local_pole (flags : Nat) : M (Option LocalPole) :=
  if flags &&& 0x0800 == 0x0800 then
    mbind read_vec3 fun x =>
    mbind read_vec3 fun z =>
    mpure (some { x, z })
  else mpure none

/-- The external-parent block of `bone` (reader.rs:433-439): the i32 payload
is read exactly when bit 13 is set, and a negative value flattens to absent. -/
def bone_external_parent (flags : Nat) : M (Option Nat) :=
  if flags &&& 0x2000 == 0x2000 then
    mbind read_i32 fun v =>
    mpure (if 0 ≤ v then some v.toNat else none)
  else mpure none

/-- One IK chain link (reader.rs:447-458). -/
def ik_link (c : Cfg) : M IkLink :=
  mbind (read_bone_index c) fun bone =>
  mbind read_u8 fun lb =>
  mbind
    (if lb == 0x01 then
      mbind read_vec3 fun lower =>
      mbind read_vec3 fun upper =>
      mpure (some { lower, upper : AngleLimit })
    else mpure none) fun limits =>
  mpure { bone, limits : IkLink }

/-- The IK block of `bone` (reader.rs:440-467). -/
def bone_ik (c : Cfg) (flags : Nat) : M (Option Ik) :=
  if flags &&& 0x0020 == 0x0020 then
    mbind (read_bone_index c) fun bone =>
    mbind read_u32 fun loop_count =>
    mbind read_f32 fun angle =>
    mbind read_u32 fun link_len =>
    mbind (mcount link_len (ik_link c)) fun links =>
    mpure (some { bone, loop_count, angle, links })
  else mpure none

/-- The flag-gated tail of `bone` (reader.rs:394-485): everything after the
16-bit flag word, in the stream order of the source (connection terminus,
addition, fixed pole, local pole, external parent, IK); the plain boolean
flags are unpacked from the same word. -/
def bone_rest (c : Cfg) (name name_en : PmxString) (position : Vec3)
    (parent : Option Nat) (deform_hierarchy : Int) (flags : Nat) : M Bone :=
  mbind (bone_connected_to c flags) fun connected_to =>
  mbind (bone_addition c flags) fun addition =>
  mbind (bone_fixed_pole flags) fun fixed_pole =>
  mbind (bone_local_pole flags) fun local_pole =>
  mbind (bone_external_parent flags) fun external_parent =>
  mbind (bone_ik c flags) fun ik =>
  mpure
    { name, name_en, position, parent, deform_hierarchy, connected_to,
      rotatable := flags &&& 0x0002 == 0x0002,
      translatable := flags &&& 0x0004 == 0x0004,
      visibility := flags &&& 0x0008 == 0x0008,
      operable := flags &&& 0x0010 == 0x0010,
      ik, addition,
      after_physics := flags &&& 0x1000 == 0x1000,
      fixed_pole, local_pole, external_parent }

/-- `bone` (reader.rs:387-486). -/
def bone (c : Cfg) : M Bone :=
  mbind (read_string c) fun name =>
  mbind (read_string c) fun name_en =>
  mbind read_vec3 fun position =>
  mbind (read_bone_index c) fun parent =>
  mbind read_i32 fun deform_hierarchy =>
  mbind read_u16 fun flags =>
  bone_rest c name name_en position parent deform_hierarchy flags

/-- `bones` (reader.rs:488-491). -/
def bones (c : Cfg) : M (List Bone) :=
  mbind read_u32 fun len =>
  mcount len (bone c)

/-- The panel match of `morph` (reader.rs:496-503), with the tag byte as
argument. -/
def panel_of (t : Nat) : M Panel :=
  match t with
  | 0 => mpure Panel.Reserved
  | 1 => mpure Panel.Eyebrow
  | 2 => mpure Panel.Eye
  | 3 => mpure Panel.Mouth
  | 4 => mpure Panel.Other
  | _ => mthrow (Error.InvalidData "morph::panel")

/-- One group-morph element (reader.rs:509-514). -/
def morph_group_element (c : Cfg) : M MorphGroup :=
  mbind (read_morph_index c) fun morph =>
  mbind read_f32 fun ratio =>
  mpure { morph, ratio : MorphGroup }

/-- One vertex-morph element (reader.rs:519-524). -/
def morph_vertex_element (c : Cfg) : M MorphVertex :=
  mbind (read_vertex_index c) fun vertex =>
  mbind read_vec3 fun offset =>
  mpure { vertex, offset : MorphVertex }

/-- One bone-morph element (reader.rs:529-535). -/
def morph_bone_element (c : Cfg) : M MorphBone :=
  mbind (read_bone_index c) fun bone =>
  mbind read_vec3 fun offset =>
  mbind read_vec4 fun rotation =>
  mpure { bone, offset, rotation : MorphBone }

/-- One UV-morph element (reader.rs:540-545, repeated verbatim for the
extended-UV kinds at reader.rs:551-556). -/
def morph_uv_element (c : Cfg) : M MorphUv :=
  mbind (read_vertex_index c) fun vertex =>
  mbind read_vec4 fun offset =>
  mpure { vertex, offset : MorphUv }

/-- One material-morph element (reader.rs:561-578). -/
def morph_material_element (c : Cfg) : M MorphMaterial :=
  mbind (read_material_index c) fun mat =>
  mbind read_u8 fun ov =>
  mbind
    (match ov with
     | 0 => mpure MaterialOp.Mul
     | 1 => mpure MaterialOp.Add
     | _ => mthrow (Error.InvalidData "morph::Material::op")) fun op =>
  mbind read_vec4 fun diffuse =>
  mbind read_vec3 fun specular =>
  mbind read_f32 fun specular_power =>
  mbind read_vec3 fun ambient =>
  mbind read_vec4 fun edge_color =>
  mbind read_f32 fun edge_size =>
  mbind read_vec4 fun texture =>
  mbind read_vec4 fun sphere =>
  mbind read_vec4 fun toon =>
  mpure { material := mat, op, diffuse, specular, specular_power, ambient,
          edge_color, edge_size, texture, sphere, toon }

/-- The kind match of `morph` (reader.rs:506-583), with the tag byte and the
element count as arguments; kinds 4-7 are the four extended-UV channels. -/
def morph_kind_of (c : Cfg) (t len : Nat) : M MorphKind :=
  match t with
  | 0 =>
    mbind (mcount len (morph_group_element c)) fun elems =>
    mpure (MorphKind.Group elems)
  | 1 =>
    mbind (mcount len (morph_vertex_element c)) fun elems =>
    mpure (MorphKind.Vertex elems)
  | 2 =>
    mbind (mcount len (morph_bone_element c)) fun elems =>
    mpure (MorphKind.Bone elems)
  | 3 =>
    mbind (mcount len (morph_uv_element c)) fun elems =>
    mpure (MorphKind.Uv elems)
  | 4 =>
    mbind (mcount len (morph_uv_element c)) fun elems =>
    mpure (MorphKind.ExtendedUv 0 elems)
  | 5 =>
    mbind (mcount len (morph_uv_element c)) fun elems =>
    mpure (MorphKind.ExtendedUv 1 elems)
  | 6 =>
    mbind (mcount len (morph_uv_element c)) fun elems =>
    mpure (MorphKind.ExtendedUv 2 elems)
  | 7 =>
    mbind (mcount len (morph_uv_element c)) fun elems =>
    mpure (MorphKind.ExtendedUv 3 elems)
  | 8 =>
    mbind (mcount len (morph_material_element c)) fun elems =>
    mpure (MorphKind.Maerial elems)
  | _ => mthrow (Error.InvalidData "morph::kind")

/-- `morph` (reader.rs:493-590). -/
def morph (c : Cfg) : M Morph :=
  mbind (read_string c) fun name =>
  mbind (read_string c) fun name_en =>
  mbind read_u8 fun pv =>
  mbind (panel_of pv) fun panel =>
  mbind read_u8 fun kind_value =>
  mbind read_u32 fun len =>
  mbind (morph_kind_of c kind_value len) fun kind =>
  mpure { name, name_en, panel, kind }

/-- `morphs` (reader.rs:592-595). -/
def morphs (c : Cfg) : M (List Morph) :=
  mbind read_u32 fun len =>
  mcount len (morph c)

/-- The element match of `display_group` (reader.rs:603-610), with the tag
byte as argument. -/
def display_element_of (c : Cfg) (t : Nat) : M DisplayElement :=
  match t with
  | 0 =>
    mbind (read_bone_index c) fun b =>
    mpure (DisplayElement.Bone b)
  | 1 =>
    mbind (read_morph_index c) fun m =>
    mpure (DisplayElement.Morph m)
  | _ => mthrow (Error.InvalidData "display_group::elements")

/-- `display_group` (reader.rs:597-618). -/
def display_group (c : Cfg) : M DisplayGroup :=
  mbind (read_string c) fun name =>
  mbind (read_string c) fun name_en =>
  mbind read_u8 fun sp =>
  mbind read_u32 fun len =>
  mbind (mcount len (mbind read_u8 fun t => display_element_of c t)) fun elements =>
  mpure { name, name_en, special := sp == 1, elements }

/-- `display_groups` (reader.rs:620-623). -/
def display_groups (c : Cfg) : M (List DisplayGroup) :=
  mbind read_u32 fun len =>
  mcount len (display_group c)

/-- The shape match of `rigid` (reader.rs:631-636), with the tag byte as
argument. -/
def shape_of (t : Nat) : M RigidShape :=
  match t with
  | 0 => mpure RigidShape.Sphere
  | 1 => mpure RigidShape.Box
  | 2 => mpure RigidShape.Capsule
  | _ => mthrow (Error.InvalidData "rigid::shape")

/-- The method match of `rigid` (reader.rs:645-650), with the tag byte as
argument. -/
def method_of (t : Nat) : M RigidMethod :=
  match t with
  | 0 => mpure RigidMethod.Static
  | 1 => mpure RigidMethod.Dynamic
  | 2 => mpure RigidMethod.DynamicWithBone
  | _ => mthrow (Error.InvalidData "rigid::method")

/-- `rigid` (reader.rs:625-668). -/
def rigid (c : Cfg) : M Rigid :=
  mbind (read_string c) fun name =>
  mbind (read_string c) fun name_en =>
  mbind (read_bone_index c) fun bone =>
  mbind read_u8 fun group =>
  mbind read_u16 fun non_collision_groups =>
  mbind read_u8 fun st =>
  mbind (shape_of st) fun shape =>
  mbind read_vec3 fun size =>
  mbind read_vec3 fun position =>
  mbind read_vec3 fun rotation =>
  mbind read_f32 fun mass =>
  mbind read_f32 fun dump_translation =>
  mbind read_f32 fun dump_rotation =>
  mbind read_f32 fun repulsive =>
  mbind read_f32 fun friction =>
  mbind read_u8 fun mt =>
  mbind (method_of mt) fun method =>
  mpure { name, name_en, bone, group, non_collision_groups, shape, size, position,
          rotation, mass, dump_translation, dump_rotation, repulsive, friction, method }

/-- `rigids` (reader.rs:670-673). -/
def rigids (c : Cfg) : M (List Rigid) :=
  mbind read_u32 fun len =>
  mcount len (rigid c)

/-- The type check of `joint` (reader.rs:678-681): only tag 0 (the standard
spring constraint) is accepted. -/
def joint_type_check (t : Nat) : M Unit :=
  if t ≠ 0 then mthrow (Error.InvalidData "joint::type") else mpure ()

/-- `joint` (reader.rs:675-706). -/
def joint (c : Cfg) : M Joint :=
  mbind (read_string c) fun name =>
  mbind (read_string c) fun name_en =>
  mbind read_u8 fun t =>
  mbind (joint_type_check t) fun _ =>
  mbind (read_rigid_index c) fun r0 =>
  mbind (read_rigid_index c) fun r1 =>
  mbind read_vec3 fun position =>
  mbind read_vec3 fun rotation =>
  mbind read_vec3 fun lt_lower =>
  mbind read_vec3 fun lt_upper =>
  mbind read_vec3 fun lr_lower =>
  mbind read_vec3 fun lr_upper =>
  mbind read_vec3 fun spring_translation =>
  mbind read_vec3 fun spring_rotation =>
  mpure { name, name_en, rigids := (r0, r1), position, rotation,
          limit_translation := { lower := lt_lower, upper := lt_upper },
          limit_rotation := { lower := lr_lower, upper := lr_upper },
          spring_translation, spring_rotation }

/-- `joints` (reader.rs:708-711). -/
def joints (c : Cfg) : M (List Joint) :=
  mbind read_u32 fun len =>
  mcount len (joint c)

/-- `Reader::read` (reader.rs:50-73): the whole pipeline — header, session
configuration, then the ten sections in the fixed format order. -/
def read : M Pmx :=
  mbind header fun h =>
  mbind (model_info (cfgOf h)) fun model_info =>
  mbind (vertices (cfgOf h)) fun vertices =>
  mbind faces fun faces =>
  mbind (textures (cfgOf h)) fun textures =>
  mbind (materials (cfgOf h)) fun materials =>
  mbind (bones (cfgOf h)) fun bones =>
  mbind (morphs (cfgOf h)) fun morphs =>
  mbind (display_groups (cfgOf h)) fun display_groups =>
  mbind (rigids (cfgOf h)) fun rigids =>
  mbind (joints (cfgOf h)) fun joints =>
  mpure { header := h, model_info, vertices, faces, textures, materials, bones,
          morphs, display_groups, rigids, joints }

end Reader

/-- Stream position of the external-parent payload inside the flag-gated
tail of a bone record, as determined by the sizes of the payloads that
precede it. -/
def extPos (c : Cfg) (flags : Nat) (p : Nat) : Nat :=
  p + (if flags.testBit 0 then c.bone_index else 12)
    + (if flags.testBit 8 || flags.testBit 9 then c.bone_index + 4 else 0)
    + (if flags.testBit 10 then 12 else 0)
    + (if flags.testBit 11 then 24 else 0)

/-- Boolean check that a decode outcome is anything other than the dormant
`UnsupportedVersion` error. -/
def notUnsupported (r : Except Error (Pmx × Nat)) : Bool :=
  match r with
  | .error Error.UnsupportedVersion => false
  | _ => true

/-- A session configuration with UTF-8 text and every index width 1. -/
def cfg1 : Cfg :=
  { encoding := Encoding.Utf8, extended_uv := 0, vertex_index := 1, tex_index := 1,
    mat_index := 1, bone_index := 1, morph_index := 1, rig_index := 1 }

/-- A session configuration with UTF-8 text and vertex index width 4. -/
def cfg4 : Cfg :=
  { encoding := Encoding.Utf8, extended_uv := 0, vertex_index := 4, tex_index := 1,
    mat_index := 1, bone_index := 1, morph_index := 1, rig_index := 1 }

/-- The minimal well-formed stream: magic, version 2.0, config byte 8, UTF-8,
no extra UV channels, all index widths 1, four empty strings, and ten empty
sections (69 bytes). -/
def dMin : Bytes :=
  [80, 77, 88, 32, 0, 0, 0, 64, 8, 1, 0, 1, 1, 1, 1, 1, 1] ++
  [0, 0, 0, 0, 0, 0, 0, 0, 0, 0, 0, 0, 0, 0, 0, 0] ++
  [0, 0, 0, 0, 0, 0, 0, 0, 0, 0, 0, 0, 0, 0, 0, 0, 0, 0,
   0, 0, 0, 0, 0, 0, 0, 0, 0, 0, 0, 0, 0, 0, 0, 0, 0, 0]

/-- The model decoded from `dMin`. -/
def pmxMin : Pmx :=
  { header :=
      { version := 1073741824, encoding := Encoding.Utf8, extended_uv := 0,
        vertex_index_size := 1, texture_index_size := 1, material_index_size := 1,
        bone_index_size := 1, morph_index_size := 1, rigid_index_size := 1 }
    model_info :=
      { name := .utf8 [], name_en := .utf8 [], comment := .utf8 [], comment_en := .utf8 [] }
    vertices := [], faces := [], textures := [], materials := [], bones := []
    morphs := [], display_groups := [], rigids := [], joints := [] }

/-- A bone record whose flag word is 0x2000 (external parent only) and whose
external-parent payload holds -1: empty names, zero position, parent byte 0,
zero deform hierarchy, flag bytes [0x00, 0x20], a zero offset terminus, then
bytes [255, 255, 255, 255]. -/
def dC3 : Bytes :=
  [0, 0, 0, 0] ++ [0, 0, 0, 0] ++
  [0, 0, 0, 0, 0, 0, 0, 0, 0, 0, 0, 0] ++ [0] ++ [0, 0, 0, 0] ++ [0, 0x20] ++
  [0, 0, 0, 0, 0, 0, 0, 0, 0, 0, 0, 0] ++ [255, 255, 255, 255]

/-- The bone decoded from `dC3`: bit 13 of its flag word was set, yet the
decoded value carries no external parent. -/
def boneC3 : Bone :=
  { name := .utf8 [], name_en := .utf8 [], position := (0, 0, 0), parent := some 0,
    deform_hierarchy := 0, connected_to := ConnectedTo.Offset (0, 0, 0),
    rotatable := false, translatable := false, visibility := false, operable := false,
    ik := none, addition := none, after_physics := false, fixed_pole := none,
    local_pole := none, external_parent := none }

/-- The flag-gated tail of a bone record with flags 0x2000: a zero offset
terminus (12 bytes) followed by an external-parent payload of -1. -/
def dEx : Bytes :=
  [0, 0, 0, 0, 0, 0, 0, 0, 0, 0, 0, 0] ++ [255, 255, 255, 255]

/-- The bone decoded by `bone_rest` from `dEx` under flags 0x2000. -/
def boneEx : Bone :=
  { name := .utf8 [], name_en := .utf8 [], position := (0, 0, 0), parent := none,
    deform_hierarchy := 0, connected_to := ConnectedTo.Offset (0, 0, 0),
    rotatable := false, translatable := false, visibility := false, operable := false,
    ik := none, addition := none, after_physics := false, fixed_pole := none,
    local_pole := none, external_parent := none }

/-- A material value whose index count (4) is not a multiple of 3. -/
def matBad : Material :=
  { name := .utf8 [], name_en := .utf8 [], diffuse := (0, 0, 0, 0), specular := (0, 0, 0),
    specular_power := 0, ambient := (0, 0, 0), both := false, ground_shadow := false,
    self_shadow_map := false, self_shadow := false, edge := false,
    edge_color := (0, 0, 0, 0), edge_size := 0, texture := none, sphere := none,
    sphere_mode := SphereMode.None, toon := Toon.Texture none, memo := .utf8 [],
    index_count := 4 }

/-- An 86-byte material record whose trailing index count is 3. -/
def dC5 : Bytes :=
  [0, 0, 0, 0] ++ [0, 0, 0, 0] ++
  List.replicate 16 0 ++ List.replicate 12 0 ++ [0, 0, 0, 0] ++ List.replicate 12 0 ++
  [0] ++ List.replicate 16 0 ++ [0, 0, 0, 0] ++ [0] ++ [0] ++ [0] ++ [0, 0] ++
  [0, 0, 0, 0] ++ [3, 0, 0, 0]

/-- The material decoded from `dC5`. -/
def matC5 : Material :=
  { name := .utf8 [], name_en := .utf8 [], diffuse := (0, 0, 0, 0), specular := (0, 0, 0),
    specular_power := 0, ambient := (0, 0, 0), both := false, ground_shadow := false,
    self_shadow_map := false, self_shadow := false, edge := false,
    edge_color := (0, 0, 0, 0), edge_size := 0, texture := some 0, sphere := some 0,
    sphere_mode := SphereMode.None, toon := Toon.Texture (some 0), memo := .utf8 [],
    index_count := 3 }

/-- The minimal stream with its extra-UV count byte set to 5, past the
documented 0-4 range; everything else as in `dMin`. -/
def dC8 : Bytes :=
  [80, 77, 88, 32, 0, 0, 0, 64, 8, 1, 5, 1, 1, 1, 1, 1, 1] ++
  [0, 0, 0, 0, 0, 0, 0, 0, 0, 0, 0, 0, 0, 0, 0, 0] ++
  [0, 0, 0, 0, 0, 0, 0, 0, 0, 0, 0, 0, 0, 0, 0, 0, 0, 0,
   0, 0, 0, 0, 0, 0, 0, 0, 0, 0, 0, 0, 0, 0, 0, 0, 0, 0]

/-- The model decoded from `dC8`: its header records 5 extra UV channels. -/
def pmxC8 : Pmx :=
  { header :=
      { version := 1073741824, encoding := Encoding.Utf8, extended_uv := 5,
        vertex_index_size := 1, texture_index_size := 1, material_index_size := 1,
        bone_index_size := 1, morph_index_size := 1, rigid_index_size := 1 }
    model_info :=
      { name := .utf8 [], name_en := .utf8 [], comment := .utf8 [], comment_en := .utf8 [] }
    vertices := [], faces := [], textures := [], materials := [], bones := []
    morphs := [], display_groups := [], rigids := [], joints := [] }

/-- A face section holding two vertex indices (a count that is not a
multiple of 3). -/
def d10 : Bytes := [2, 0, 0, 0, 7, 0, 0, 0, 9, 0, 0, 0]

/-! ## Basic facts about the decoding monad -/

theorem mpure_ok {α : Type} {a b : α} {d : Bytes} {p q : Nat} :
    mpure a d p = .ok (b, q) ↔ b = a ∧ q = p := by
  unfold mpure
  constructor
  · intro h
    cases h
    exact ⟨rfl, rfl⟩
  · rintro ⟨rfl, rfl⟩
    rfl

theorem mthrow_not_ok {α : Type} {e : Error} {a : α} {d : Bytes} {p q : Nat} :
    mthrow (α := α) e d p = .ok (a, q) ↔ False := by
  unfold mthrow
  simp

theorem mbind_eq_of_ok {α β : Type} {m : M α} {f : α → M β} {d : Bytes} {p r : Nat}
    {a : α} (h : m d p = .ok (a, r)) : mbind m f d p = f a d r := by
  unfold mbind
  rw [h]

theorem mbind_eq_of_err {α β : Type} {m : M α} {f : α → M β} {d : Bytes} {p : Nat}
    {e : Error} (h : m d p = .error e) : mbind m f d p = .error e := by
  unfold mbind
  rw [h]

theorem mbind_ok {α β : Type} {m : M α} {f : α → M β} {d : Bytes} {p q : Nat} {b : β} :
    mbind m f d p = .ok (b, q) ↔ ∃ a r, m d p = .ok (a, r) ∧ f a d r = .ok (b, q) := by
  constructor
  · intro h
    unfold mbind at h
    cases hm : m d p with
    | ok ar =>
      obtain ⟨a, r⟩ := ar
      exact ⟨a, r, rfl, by rw [hm] at h; exact h⟩
    | error e => rw [hm] at h; exact absurd h (by simp)
  · rintro ⟨a, r, h1, h2⟩
    rw [mbind_eq_of_ok h1]
    exact h2

theorem readBin_ok {k : Nat} {d : Bytes} {p q : Nat} {bs : Bytes} :
    readBin k d p = .ok (bs, q) ↔
      p + k ≤ d.length ∧ bs = (d.drop p).take k ∧ q = p + k := by
  unfold readBin
  split
  · rename_i h
    constructor
    · intro hok
      cases hok
      exact ⟨h, rfl, rfl⟩
    · rintro ⟨-, rfl, rfl⟩
      rfl
  · rename_i h
    constructor
    · intro hok
      exact absurd hok (by simp)
    · rintro ⟨hle, -, -⟩
      exact absurd hle h

theorem readBin_err {k : Nat} {d : Bytes} {p : Nat}
    (h : ¬ p + k ≤ d.length) : readBin k d p = .error Error.Io := by
  unfold readBin
  rw [if_neg h]

/-! ## The prefix-truncation / error-category invariant

`GoodM m` packages two global properties of a decoding step, both closed
under the combinators the reader is built from:

* positions only advance, and running the same decoder on a truncated copy
  `d.take n` of the stream either reproduces the run exactly (when the run
  stayed inside the kept prefix) or fails with `Error.Io` (when a read
  crosses the cut) — never with a structural error;
* the decoder never produces `Error.UnsupportedVersion`.
-/

/-- Truncation behavior of a decoder (see the module comment above). -/
def TRunc {α : Type} (m : M α) : Prop :=
  ∀ d p a q, m d p = .ok (a, q) →
    p ≤ q ∧ ∀ n, p ≤ n →
      (q ≤ n → m (d.take n) p = .ok (a, q)) ∧
      (n < q → m (d.take n) p = .error Error.Io)

/-- The decoder can never emit `Error.UnsupportedVersion`. -/
def NoUV {α : Type} (m : M α) : Prop :=
  ∀ d p, m d p ≠ .error Error.UnsupportedVersion

/-- Conjunction of the two global invariants. -/
def GoodM {α : Type} (m : M α) : Prop :=
  TRunc m ∧ NoUV m

theorem good_mpure {α : Type} (a : α) : GoodM (mpure a) := by
  constructor
  · intro d p b q h
    rw [mpure_ok] at h
    obtain ⟨rfl, rfl⟩ := h
    exact ⟨le_refl _, fun n _ => ⟨fun _ => rfl, fun hlt => absurd hlt (by omega)⟩⟩
  · intro d p h
    exact absurd h (by unfold mpure; simp)

theorem good_mthrow {α : Type} (s : String) :
    GoodM (mthrow (α := α) (Error.InvalidData s)) := by
  constructor
  · intro d p b q h
    exact absurd h (by unfold mthrow; simp)
  · intro d p h
    unfold mthrow at h
    cases h

theorem good_readBin (k : Nat) : GoodM (readBin k) := by
  constructor
  · intro d p bs q h
    rw [readBin_ok] at h
    obtain ⟨hle, rfl, rfl⟩ := h
    refine ⟨by omega, fun n hpn => ⟨fun hq => ?_, fun hq => ?_⟩⟩
    · rw [readBin_ok]
      refine ⟨by simp [List.length_take]; omega, ?_, rfl⟩
      rw [List.drop_take, List.take_take]
      congr 1
      omega
    · apply readBin_err
      simp [List.length_take]
      omega
  · intro d p h
    unfold readBin at h
    split at h
    · cases h
    · cases h

theorem good_mbind {α β : Type} {m : M α} {f : α → M β}
    (hm : GoodM m) (hf : ∀ a, GoodM (f a)) : GoodM (mbind m f) := by
  constructor
  · intro d p b q h
    rw [mbind_ok] at h
    obtain ⟨a, r, h1, h2⟩ := h
    obtain ⟨hpr, hm1⟩ := hm.1 d p a r h1
    obtain ⟨hrq, hf1⟩ := (hf a).1 d r b q h2
    refine ⟨by omega, fun n hpn => ⟨fun hq => ?_, fun hq => ?_⟩⟩
    · rw [mbind_eq_of_ok ((hm1 n hpn).1 (by omega))]
      exact (hf1 n (by omega)).1 hq
    · rcases le_or_lt r n with hrn | hrn
      · rw [mbind_eq_of_ok ((hm1 n hpn).1 hrn)]
        exact (hf1 n hrn).2 hq
      · exact mbind_eq_of_err ((hm1 n hpn).2 hrn)
  · intro d p h
    unfold mbind at h
    cases hm' : m d p with
    | ok ar =>
      rw [hm'] at h
      exact (hf ar.1).2 d ar.2 h
    | error e =>
      rw [hm'] at h
      cases h
      exact hm.2 d p hm'

theorem good_ite {α : Type} {c : Prop} [Decidable c] {t e : M α}
    (ht : GoodM t) (he : GoodM e) : GoodM (if c then t else e) := by
  split
  · exact ht
  · exact he

theorem good_mcount {α : Type} {m : M α} (hm : GoodM m) (n : Nat) :
    GoodM (mcount n m) := by
  induction n with
  | zero => exact good_mpure []
  | succ k ih =>
    exact good_mbind hm fun a => good_mbind ih fun l => good_mpure (a :: l)

namespace Reader

theorem good_read_u8 : GoodM read_u8 :=
  good_mbind (good_readBin 1) fun bs => good_mpure (leVal bs)

theorem good_read_u16 : GoodM read_u16 :=
  good_mbind (good_readBin 2) fun bs => good_mpure (leVal bs)

theorem good_read_u32 : GoodM read_u32 :=
  good_mbind (good_readBin 4) fun bs => good_mpure (leVal bs)

theorem good_read_i32 : GoodM read_i32 :=
  good_mbind (good_readBin 4) fun bs => good_mpure (sint 4 (leVal bs))

theorem good_read_f32 : GoodM read_f32 :=
  good_mbind (good_readBin 4) fun bs => good_mpure (leVal bs)

theorem good_read_vec2 : GoodM read_vec2 :=
  good_mbind good_read_f32 fun a =>
  good_mbind good_read_f32 fun b =>
  good_mpure (a, b)

theorem good_read_vec3 : GoodM read_vec3 :=
  good_mbind good_read_f32 fun a =>
  good_mbind good_read_f32 fun b =>
  good_mbind good_read_f32 fun c =>
  good_mpure (a, b, c)

theorem good_read_vec4 : GoodM read_vec4 :=
  good_mbind good_read_f32 fun a =>
  good_mbind good_read_f32 fun b =>
  good_mbind good_read_f32 fun c =>
  good_mbind good_read_f32 fun e =>
  good_mpure (a, b, c, e)

theorem good_read_string (c : Cfg) : GoodM (read_string c) :=
  good_mbind good_read_u32 fun len =>
  good_mbind (good_readBin len) fun bs =>
  good_mpure (decodeText c.encoding bs)

theorem good_read_signed_index (w : Nat) : GoodM (read_signed_index w) := by
  unfold read_signed_index
  refine good_mbind (good_readBin w) fun bs => ?_
  rcases w with _ | _ | _ | _ | _ | w
  · exact good_mpure _
  · exact good_mpure _
  · exact good_mpure _
  · exact good_mpure _
  · exact good_mpure _
  · exact good_mpure _

theorem good_read_vertex_index (c : Cfg) : GoodM (read_vertex_index c) := by
  unfold read_vertex_index
  refine good_mbind (good_readBin c.vertex_index) fun bs => ?_
  rcases hv : c.vertex_index with _ | _ | _ | _ | _ | w
  · exact good_mpure _
  · exact good_mpure _
  · exact good_mpure _
  · exact good_mpure _
  · exact good_mpure _
  · exact good_mpure _

theorem good_read_texture_index (c : Cfg) : GoodM (read_texture_index c) :=
  good_read_signed_index c.tex_index

theorem good_read_material_index (c : Cfg) : GoodM (read_material_index c) :=
  good_read_signed_index c.mat_index

theorem good_read_bone_index (c : Cfg) : GoodM (read_bone_index c) :=
  good_read_signed_index c.bone_index

theorem good_read_morph_index (c : Cfg) : GoodM (read_morph_index c) :=
  good_read_signed_index c.morph_index

theorem good_read_rigid_index (c : Cfg) : GoodM (read_rigid_index c) :=
  good_read_signed_index c.rig_index

theorem good_read_index_size : GoodM read_index_size := by
  unfold read_index_size
  refine good_mbind good_read_u8 fun v => ?_
  rcases v with _ | _ | _ | _ | _ | v
  · exact good_mthrow _
  · exact good_mpure _
  · exact good_mpure _
  · exact good_mthrow _
  · exact good_mpure _
  · exact good_mthrow _

theorem good_header : GoodM header := by
  unfold header
  refine good_mbind (good_readBin 4) fun magic => ?_
  refine good_ite ?_ (good_mthrow _)
  refine good_mbind good_read_f32 fun version => ?_
  refine good_mbind good_read_u8 fun bytes => ?_
  refine good_ite ?_ (good_mthrow _)
  refine good_mbind good_read_u8 fun encv => ?_
  refine good_mbind ?_ fun encoding => ?_
  · rcases encv with _ | _ | encv
    · exact good_mpure _
    · exact good_mpure _
    · exact good_mthrow _
  · refine good_mbind good_read_u8 fun extended_uv => ?_
    refine good_mbind good_read_index_size fun s1 => ?_
    refine good_mbind good_read_index_size fun s2 => ?_
    refine good_mbind good_read_index_size fun s3 => ?_
    refine good_mbind good_read_index_size fun s4 => ?_
    refine good_mbind good_read_index_size fun s5 => ?_
    refine good_mbind good_read_index_size fun s6 => ?_
    exact good_mpure _

theorem good_model_info (c : Cfg) : GoodM (model_info c) :=
  good_mbind (good_read_string c) fun _ =>
  good_mbind (good_read_string c) fun _ =>
  good_mbind (good_read_string c) fun _ =>
  good_mbind (good_read_string c) fun _ =>
  good_mpure _

theorem good_vertex_weight (c : Cfg) (t : Nat) : GoodM (vertex_weight c t) := by
  unfold vertex_weight
  rcases t with _ | _ | _ | _ | t
  · exact good_mbind (good_read_bone_index c) fun _ => good_mpure _
  · exact good_mbind (good_read_bone_index c) fun _ =>
      good_mbind (good_read_bone_index c) fun _ =>
      good_mbind good_read_f32 fun _ => good_mpure _
  · exact good_mbind (good_read_bone_index c) fun _ =>
      good_mbind (good_read_bone_index c) fun _ =>
      good_mbind (good_read_bone_index c) fun _ =>
      good_mbind (good_read_bone_index c) fun _ =>
      good_mbind good_read_f32 fun _ =>
      good_mbind good_read_f32 fun _ =>
      good_mbind good_read_f32 fun _ =>
      good_mbind good_read_f32 fun _ => good_mpure _
  · exact good_mbind (good_read_bone_index c) fun _ =>
      good_mbind (good_read_bone_index c) fun _ =>
      good_mbind good_read_f32 fun _ =>
      good_mbind good_read_vec3 fun _ =>
      good_mbind good_read_vec3 fun _ =>
      good_mbind good_read_vec3 fun _ => good_mpure _
  · exact good_mthrow _

theorem good_vertex (c : Cfg) : GoodM (vertex c) :=
  good_mbind good_read_vec3 fun _ =>
  good_mbind good_read_vec3 fun _ =>
  good_mbind good_read_vec2 fun _ =>
  good_mbind (good_mcount good_read_vec4 c.extended_uv) fun _ =>
  good_mbind good_read_u8 fun t =>
  good_mbind (good_vertex_weight c t) fun _ =>
  good_mbind good_read_f32 fun _ =>
  good_mpure _

theorem good_vertices (c : Cfg) : GoodM (vertices c) :=
  good_mbind good_read_u32 fun len => good_mcount (good_vertex c) len

theorem good_faces : GoodM faces :=
  good_mbind good_read_u32 fun len => good_mcount good_read_u32 len

theorem good_textures (c : Cfg) : GoodM (textures c) :=
  good_mbind good_read_u32 fun len => good_mcount (good_read_string c) len

theorem good_sphere_mode_of (t : Nat) : GoodM (sphere_mode_of t) := by
  unfold sphere_mode_of
  rcases t with _ | _ | _ | _ | t
  · exact good_mpure _
  · exact good_mpure _
  · exact good_mpure _
  · exact good_mpure _
  · exact good_mthrow _

theorem good_toon_of (c : Cfg) (t : Nat) : GoodM (toon_of c t) := by
  unfold toon_of
  rcases t with _ | _ | t
  · exact good_mbind (good_read_texture_index c) fun _ => good_mpure _
  · exact good_mbind good_read_u8 fun _ => good_mpure _
  · exact good_mthrow _

theorem good_material_finish (m : Material) : GoodM (material_finish m) := by
  unfold material_finish
  exact good_ite (good_mthrow _) (good_mpure _)

theorem good_material (c : Cfg) : GoodM (material c) :=
  good_mbind (good_read_string c) fun _ =>
  good_mbind (good_read_string c) fun _ =>
  good_mbind good_read_vec4 fun _ =>
  good_mbind good_read_vec3 fun _ =>
  good_mbind good_read_f32 fun _ =>
  good_mbind good_read_vec3 fun _ =>
  good_mbind good_read_u8 fun _ =>
  good_mbind good_read_vec4 fun _ =>
  good_mbind good_read_f32 fun _ =>
  good_mbind (good_read_texture_index c) fun _ =>
  good_mbind (good_read_texture_index c) fun _ =>
  good_mbind good_read_u8 fun smt =>
  good_mbind (good_sphere_mode_of smt) fun _ =>
  good_mbind good_read_u8 fun tt =>
  good_mbind (good_toon_of c tt) fun _ =>
  good_mbind (good_read_string c) fun _ =>
  good_mbind good_read_u32 fun _ =>
  good_material_finish _

theorem good_materials (c : Cfg) : GoodM (materials c) :=
  good_mbind good_read_u32 fun len => good_mcount (good_material c) len

end Reader

namespace Reader

theorem good_bone_connected_to (c : Cfg) (flags : Nat) :
    GoodM (bone_connected_to c flags) := by
  unfold bone_connected_to
  rcases h : flags &&& 0x0001 with _ | _ | v
  · exact good_mbind good_read_vec3 fun _ => good_mpure _
  · exact good_mbind (good_read_bone_index c) fun _ => good_mpure _
  · exact good_mthrow _

theorem good_bone_addition (c : Cfg) (flags : Nat) : GoodM (bone_addition c flags) := by
  unfold bone_addition
  refine good_ite (good_mpure _) ?_
  exact good_mbind (good_read_bone_index c) fun _ =>
    good_mbind good_read_f32 fun _ => good_mpure _

theorem good_bone_fixed_pole (flags : Nat) : GoodM (bone_fixed_pole flags) := by
  unfold bone_fixed_pole
  exact good_ite (good_mbind good_read_vec3 fun _ => good_mpure _) (good_mpure _)

theorem good_bone_local_pole (flags : Nat) : GoodM (bone_local_pole flags) := by
  unfold bone_local_pole
  exact good_ite
    (good_mbind good_read_vec3 fun _ => good_mbind good_read_vec3 fun _ => good_mpure _)
    (good_mpure _)

theorem good_bone_external_parent (flags : Nat) : GoodM (bone_external_parent flags) := by
  unfold bone_external_parent
  exact good_ite (good_mbind good_read_i32 fun _ => good_mpure _) (good_mpure _)

theorem good_ik_link (c : Cfg) : GoodM (ik_link c) := by
  unfold ik_link
  refine good_mbind (good_read_bone_index c) fun _ => ?_
  refine good_mbind good_read_u8 fun lb => ?_
  refine good_mbind ?_ fun _ => good_mpure _
  exact good_ite
    (good_mbind good_read_vec3 fun _ => good_mbind good_read_vec3 fun _ => good_mpure _)
    (good_mpure _)

theorem good_bone_ik (c : Cfg) (flags : Nat) : GoodM (bone_ik c flags) := by
  unfold bone_ik
  refine good_ite ?_ (good_mpure _)
  exact good_mbind (good_read_bone_index c) fun _ =>
    good_mbind good_read_u32 fun _ =>
    good_mbind good_read_f32 fun _ =>
    good_mbind good_read_u32 fun link_len =>
    good_mbind (good_mcount (good_ik_link c) link_len) fun _ =>
    good_mpure _

theorem good_bone_rest (c : Cfg) (name name_en : PmxString) (position : Vec3)
    (parent : Option Nat) (deform_hierarchy : Int) (flags : Nat) :
    GoodM (bone_rest c name name_en position parent deform_hierarchy flags) :=
  good_mbind (good_bone_connected_to c flags) fun _ =>
  good_mbind (good_bone_addition c flags) fun _ =>
  good_mbind (good_bone_fixed_pole flags) fun _ =>
  good_mbind (good_bone_local_pole flags) fun _ =>
  good_mbind (good_bone_external_parent flags) fun _ =>
  good_mbind (good_bone_ik c flags) fun _ =>
  good_mpure _

theorem good_bone (c : Cfg) : GoodM (bone c) :=
  good_mbind (good_read_string c) fun name =>
  good_mbind (good_read_string c) fun name_en =>
  good_mbind good_read_vec3 fun position =>
  good_mbind (good_read_bone_index c) fun parent =>
  good_mbind good_read_i32 fun dh =>
  good_mbind good_read_u16 fun flags =>
  good_bone_rest c name name_en position parent dh flags

theorem good_bones (c : Cfg) : GoodM (bones c) :=
  good_mbind good_read_u32 fun len => good_mcount (good_bone c) len

theorem good_panel_of (t : Nat) : GoodM (panel_of t) := by
  unfold panel_of
  rcases t with _ | _ | _ | _ | _ | t
  · exact good_mpure _
  · exact good_mpure _
  · exact good_mpure _
  · exact good_mpure _
  · exact good_mpure _
  · exact good_mthrow _

theorem good_morph_group_element (c : Cfg) : GoodM (morph_group_element c) :=
  good_mbind (good_read_morph_index c) fun _ =>
  good_mbind good_read_f32 fun _ => good_mpure _

theorem good_morph_vertex_element (c : Cfg) : GoodM (morph_vertex_element c) :=
  good_mbind (good_read_vertex_index c) fun _ =>
  good_mbind good_read_vec3 fun _ => good_mpure _

theorem good_morph_bone_element (c : Cfg) : GoodM (morph_bone_element c) :=
  good_mbind (good_read_bone_index c) fun _ =>
  good_mbind good_read_vec3 fun _ =>
  good_mbind good_read_vec4 fun _ => good_mpure _

theorem good_morph_uv_element (c : Cfg) : GoodM (morph_uv_element c) :=
  good_mbind (good_read_vertex_index c) fun _ =>
  good_mbind good_read_vec4 fun _ => good_mpure _

theorem good_morph_material_element (c : Cfg) : GoodM (morph_material_element c) := by
  unfold morph_material_element
  refine good_mbind (good_read_material_index c) fun _ => ?_
  refine good_mbind good_read_u8 fun ov => ?_
  refine good_mbind ?_ fun _ => ?_
  · rcases ov with _ | _ | ov
    · exact good_mpure _
    · exact good_mpure _
    · exact good_mthrow _
  · exact good_mbind good_read_vec4 fun _ =>
      good_mbind good_read_vec3 fun _ =>
      good_mbind good_read_f32 fun _ =>
      good_mbind good_read_vec3 fun _ =>
      good_mbind good_read_vec4 fun _ =>
      good_mbind good_read_f32 fun _ =>
      good_mbind good_read_vec4 fun _ =>
      good_mbind good_read_vec4 fun _ =>
      good_mbind good_read_vec4 fun _ => good_mpure _

theorem good_morph_kind_of (c : Cfg) (t len : Nat) : GoodM (morph_kind_of c t len) := by
  unfold morph_kind_of
  rcases t with _ | _ | _ | _ | _ | _ | _ | _ | _ | t
  · exact good_mbind (good_mcount (good_morph_group_element c) len) fun _ => good_mpure _
  · exact good_mbind (good_mcount (good_morph_vertex_element c) len) fun _ => good_mpure _
  · exact good_mbind (good_mcount (good_morph_bone_element c) len) fun _ => good_mpure _
  · exact good_mbind (good_mcount (good_morph_uv_element c) len) fun _ => good_mpure _
  · exact good_mbind (good_mcount (good_morph_uv_element c) len) fun _ => good_mpure _
  · exact good_mbind (good_mcount (good_morph_uv_element c) len) fun _ => good_mpure _
  · exact good_mbind (good_mcount (good_morph_uv_element c) len) fun _ => good_mpure _
  · exact good_mbind (good_mcount (good_morph_uv_element c) len) fun _ => good_mpure _
  · exact good_mbind (good_mcount (good_morph_material_element c) len) fun _ => good_mpure _
  · exact good_mthrow _

theorem good_morph (c : Cfg) : GoodM (morph c) :=
  good_mbind (good_read_string c) fun _ =>
  good_mbind (good_read_string c) fun _ =>
  good_mbind good_read_u8 fun pv =>
  good_mbind (good_panel_of pv) fun _ =>
  good_mbind good_read_u8 fun kind_value =>
  good_mbind good_read_u32 fun len =>
  good_mbind (good_morph_kind_of c kind_value len) fun _ =>
  good_mpure _

theorem good_morphs (c : Cfg) : GoodM (morphs c) :=
  good_mbind good_read_u32 fun len => good_mcount (good_morph c) len

theorem good_display_element_of (c : Cfg) (t : Nat) : GoodM (display_element_of c t) := by
  unfold display_element_of
  rcases t with _ | _ | t
  · exact good_mbind (good_read_bone_index c) fun _ => good_mpure _
  · exact good_mbind (good_read_morph_index c) fun _ => good_mpure _
  · exact good_mthrow _

theorem good_display_group (c : Cfg) : GoodM (display_group c) :=
  good_mbind (good_read_string c) fun _ =>
  good_mbind (good_read_string c) fun _ =>
  good_mbind good_read_u8 fun _ =>
  good_mbind good_read_u32 fun len =>
  good_mbind
    (good_mcount (good_mbind good_read_u8 fun t => good_display_element_of c t) len)
    fun _ =>
  good_mpure _

theorem good_display_groups (c : Cfg) : GoodM (display_groups c) :=
  good_mbind good_read_u32 fun len => good_mcount (good_display_group c) len

theorem good_shape_of (t : Nat) : GoodM (shape_of t) := by
  unfold shape_of
  rcases t with _ | _ | _ | _ | t
  · exact good_mpure _
  · exact good_mpure _
  · exact good_mpure _
  · exact good_mthrow _
  · exact good_mthrow _

theorem good_method_of (t : Nat) : GoodM (method_of t) := by
  unfold method_of
  rcases t with _ | _ | _ | _ | t
  · exact good_mpure _
  · exact good_mpure _
  · exact good_mpure _
  · exact good_mthrow _
  · exact good_mthrow _

theorem good_rigid (c : Cfg) : GoodM (rigid c) :=
  good_mbind (good_read_string c) fun _ =>
  good_mbind (good_read_string c) fun _ =>
  good_mbind (good_read_bone_index c) fun _ =>
  good_mbind good_read_u8 fun _ =>
  good_mbind good_read_u16 fun _ =>
  good_mbind good_read_u8 fun st =>
  good_mbind (good_shape_of st) fun _ =>
  good_mbind good_read_vec3 fun _ =>
  good_mbind good_read_vec3 fun _ =>
  good_mbind good_read_vec3 fun _ =>
  good_mbind good_read_f32 fun _ =>
  good_mbind good_read_f32 fun _ =>
  good_mbind good_read_f32 fun _ =>
  good_mbind good_read_f32 fun _ =>
  good_mbind good_read_f32 fun _ =>
  good_mbind good_read_u8 fun mt =>
  good_mbind (good_method_of mt) fun _ =>
  good_mpure _

theorem good_rigids (c : Cfg) : GoodM (rigids c) :=
  good_mbind good_read_u32 fun len => good_mcount (good_rigid c) len

theorem good_joint_type_check (t : Nat) : GoodM (joint_type_check t) := by
  unfold joint_type_check
  exact good_ite (good_mthrow _) (good_mpure _)

theorem good_joint (c : Cfg) : GoodM (joint c) :=
  good_mbind (good_read_string c) fun _ =>
  good_mbind (good_read_string c) fun _ =>
  good_mbind good_read_u8 fun t =>
  good_mbind (good_joint_type_check t) fun _ =>
  good_mbind (good_read_rigid_index c) fun _ =>
  good_mbind (good_read_rigid_index c) fun _ =>
  good_mbind good_read_vec3 fun _ =>
  good_mbind good_read_vec3 fun _ =>
  good_mbind good_read_vec3 fun _ =>
  good_mbind good_read_vec3 fun _ =>
  good_mbind good_read_vec3 fun _ =>
  good_mbind good_read_vec3 fun _ =>
  good_mbind good_read_vec3 fun _ =>
  good_mbind good_read_vec3 fun _ =>
  good_mpure _

theorem good_joints (c : Cfg) : GoodM (joints c) :=
  good_mbind good_read_u32 fun len => good_mcount (good_joint c) len

theorem good_read : GoodM read :=
  good_mbind good_header fun h =>
  good_mbind (good_model_info (cfgOf h)) fun _ =>
  good_mbind (good_vertices (cfgOf h)) fun _ =>
  good_mbind good_faces fun _ =>
  good_mbind (good_textures (cfgOf h)) fun _ =>
  good_mbind (good_materials (cfgOf h)) fun _ =>
  good_mbind (good_bones (cfgOf h)) fun _ =>
  good_mbind (good_morphs (cfgOf h)) fun _ =>
  good_mbind (good_display_groups (cfgOf h)) fun _ =>
  good_mbind (good_rigids (cfgOf h)) fun _ =>
  good_mbind (good_joints (cfgOf h)) fun _ =>
  good_mpure _

end Reader

/-! ## Value-level inversion lemmas for the primitive readers -/

theorem map_readBin_ok {α : Type} {k : Nat} {g : Bytes → α} {d : Bytes} {p q : Nat}
    {v : α} :
    mbind (readBin k) (fun bs => mpure (g bs)) d p = .ok (v, q) ↔
      p + k ≤ d.length ∧ v = g ((d.drop p).take k) ∧ q = p + k := by
  rw [mbind_ok]
  constructor
  · rintro ⟨bs, r, h1, h2⟩
    rw [readBin_ok] at h1
    obtain ⟨hle, rfl, rfl⟩ := h1
    rw [mpure_ok] at h2
    obtain ⟨rfl, rfl⟩ := h2
    exact ⟨hle, rfl, rfl⟩
  · rintro ⟨hle, rfl, rfl⟩
    exact ⟨(d.drop p).take k, p + k, readBin_ok.mpr ⟨hle, rfl, rfl⟩, mpure_ok.mpr ⟨rfl, rfl⟩⟩

namespace Reader

theorem read_u8_ok {d : Bytes} {p q v : Nat} :
    read_u8 d p = .ok (v, q) ↔
      p + 1 ≤ d.length ∧ v = leVal ((d.drop p).take 1) ∧ q = p + 1 :=
  map_readBin_ok

theorem read_u16_ok {d : Bytes} {p q v : Nat} :
    read_u16 d p = .ok (v, q) ↔
      p + 2 ≤ d.length ∧ v = leVal ((d.drop p).take 2) ∧ q = p + 2 :=
  map_readBin_ok

theorem read_u32_ok {d : Bytes} {p q v : Nat} :
    read_u32 d p = .ok (v, q) ↔
      p + 4 ≤ d.length ∧ v = leVal ((d.drop p).take 4) ∧ q = p + 4 :=
  map_readBin_ok

theorem read_i32_ok {d : Bytes} {p q : Nat} {v : Int} :
    read_i32 d p = .ok (v, q) ↔
      p + 4 ≤ d.length ∧ v = sint 4 (leVal ((d.drop p).take 4)) ∧ q = p + 4 :=
  map_readBin_ok

theorem read_f32_ok {d : Bytes} {p q v : Nat} :
    read_f32 d p = .ok (v, q) ↔
      p + 4 ≤ d.length ∧ v = leVal ((d.drop p).take 4) ∧ q = p + 4 :=
  map_readBin_ok

theorem read_vec2_consumes {d : Bytes} {p q : Nat} {v : Vec2}
    (h : read_vec2 d p = .ok (v, q)) : p + 8 ≤ d.length ∧ q = p + 8 := by
  unfold read_vec2 at h
  rw [mbind_ok] at h
  obtain ⟨a, r, h1, h⟩ := h
  rw [mbind_ok] at h
  obtain ⟨b, r2, h2, h⟩ := h
  rw [read_f32_ok] at h1 h2
  rw [mpure_ok] at h
  omega

theorem read_vec3_consumes {d : Bytes} {p q : Nat} {v : Vec3}
    (h : read_vec3 d p = .ok (v, q)) : p + 12 ≤ d.length ∧ q = p + 12 := by
  unfold read_vec3 at h
  rw [mbind_ok] at h
  obtain ⟨a, r, h1, h⟩ := h
  rw [mbind_ok] at h
  obtain ⟨b, r2, h2, h⟩ := h
  rw [mbind_ok] at h
  obtain ⟨cc, r3, h3, h⟩ := h
  rw [read_f32_ok] at h1 h2 h3
  rw [mpure_ok] at h
  omega

theorem read_vec4_consumes {d : Bytes} {p q : Nat} {v : Vec4}
    (h : read_vec4 d p = .ok (v, q)) : p + 16 ≤ d.length ∧ q = p + 16 := by
  unfold read_vec4 at h
  rw [mbind_ok] at h
  obtain ⟨a, r, h1, h⟩ := h
  rw [mbind_ok] at h
  obtain ⟨b, r2, h2, h⟩ := h
  rw [mbind_ok] at h
  obtain ⟨cc, r3, h3, h⟩ := h
  rw [mbind_ok] at h
  obtain ⟨e, r4, h4, h⟩ := h
  rw [read_f32_ok] at h1 h2 h3 h4
  rw [mpure_ok] at h
  omega

theorem read_vec2_of_le {d : Bytes} {p : Nat} (hle : p + 8 ≤ d.length) :
    ∃ v, read_vec2 d p = .ok (v, p + 8) := by
  refine ⟨(leVal ((d.drop p).take 4), leVal ((d.drop (p + 4)).take 4)), ?_⟩
  unfold read_vec2
  rw [mbind_eq_of_ok (read_f32_ok.mpr ⟨by omega, rfl, rfl⟩)]
  rw [mbind_eq_of_ok (read_f32_ok.mpr ⟨by omega, rfl, rfl⟩)]
  rw [mpure_ok]
  exact ⟨rfl, by omega⟩

theorem read_vec3_of_le {d : Bytes} {p : Nat} (hle : p + 12 ≤ d.length) :
    ∃ v, read_vec3 d p = .ok (v, p + 12) := by
  refine ⟨(leVal ((d.drop p).take 4), leVal ((d.drop (p + 4)).take 4),
    leVal ((d.drop (p + 4 + 4)).take 4)), ?_⟩
  unfold read_vec3
  rw [mbind_eq_of_ok (read_f32_ok.mpr ⟨by omega, rfl, rfl⟩)]
  rw [mbind_eq_of_ok (read_f32_ok.mpr ⟨by omega, rfl, rfl⟩)]
  rw [mbind_eq_of_ok (read_f32_ok.mpr ⟨by omega, rfl, rfl⟩)]
  rw [mpure_ok]
  exact ⟨rfl, by omega⟩

theorem read_vec4_of_le {d : Bytes} {p : Nat} (hle : p + 16 ≤ d.length) :
    ∃ v, read_vec4 d p = .ok (v, p + 16) := by
  refine ⟨(leVal ((d.drop p).take 4), leVal ((d.drop (p + 4)).take 4),
    leVal ((d.drop (p + 4 + 4)).take 4), leVal ((d.drop (p + 4 + 4 + 4)).take 4)), ?_⟩
  unfold read_vec4
  rw [mbind_eq_of_ok (read_f32_ok.mpr ⟨by omega, rfl, rfl⟩)]
  rw [mbind_eq_of_ok (read_f32_ok.mpr ⟨by omega, rfl, rfl⟩)]
  rw [mbind_eq_of_ok (read_f32_ok.mpr ⟨by omega, rfl, rfl⟩)]
  rw [mbind_eq_of_ok (read_f32_ok.mpr ⟨by omega, rfl, rfl⟩)]
  rw [mpure_ok]
  exact ⟨rfl, by omega⟩

theorem read_string_ok {c : Cfg} {d : Bytes} {p q : Nat} {s : PmxString} :
    read_string c d p = .ok (s, q) ↔
      p + 4 ≤ d.length ∧
      p + 4 + leVal ((d.drop p).take 4) ≤ d.length ∧
      s = decodeText c.encoding ((d.drop (p + 4)).take (leVal ((d.drop p).take 4))) ∧
      q = p + 4 + leVal ((d.drop p).take 4) := by
  unfold read_string
  rw [mbind_ok]
  constructor
  · rintro ⟨len, r, h1, h⟩
    rw [read_u32_ok] at h1
    obtain ⟨hle, rfl, rfl⟩ := h1
    rw [map_readBin_ok] at h
    obtain ⟨hle2, rfl, rfl⟩ := h
    exact ⟨hle, hle2, rfl, rfl⟩
  · rintro ⟨hle, hle2, rfl, rfl⟩
    exact ⟨_, _, read_u32_ok.mpr ⟨hle, rfl, rfl⟩, map_readBin_ok.mpr ⟨hle2, rfl, rfl⟩⟩

theorem read_signed_index_consumes {w : Nat} {d : Bytes} {p q : Nat} {o : Option Nat}
    (h : read_signed_index w d p = .ok (o, q)) : p + w ≤ d.length ∧ q = p + w := by
  unfold read_signed_index at h
  rw [mbind_ok] at h
  obtain ⟨bs, r, h1, h⟩ := h
  rw [readBin_ok] at h1
  obtain ⟨hle, rfl, rfl⟩ := h1
  split at h <;>
    · rw [mpure_ok] at h
      exact ⟨hle, h.2⟩

theorem read_vertex_index_consumes {c : Cfg} {d : Bytes} {p q : Nat} {o : Option Nat}
    (h : read_vertex_index c d p = .ok (o, q)) :
    p + c.vertex_index ≤ d.length ∧ q = p + c.vertex_index := by
  obtain ⟨w, hw⟩ : ∃ w, c.vertex_index = w := ⟨_, rfl⟩
  unfold read_vertex_index at h
  rw [mbind_ok] at h
  obtain ⟨bs, r, h1, h⟩ := h
  rw [readBin_ok] at h1
  obtain ⟨hle, rfl, rfl⟩ := h1
  rw [hw]
  rw [hw] at h hle
  split at h <;>
    · rw [mpure_ok] at h
      exact ⟨hle, h.2⟩

end Reader

/-! ## Facts about repeated records and signed little-endian values -/

theorem mcount_len {α : Type} {m : M α} {n : Nat} {d : Bytes} {p q : Nat} {l : List α}
    (h : mcount n m d p = .ok (l, q)) : l.length = n := by
  induction n generalizing p q l with
  | zero =>
    unfold mcount at h
    rw [mpure_ok] at h
    rw [h.1]
    rfl
  | succ k ih =>
    unfold mcount at h
    rw [mbind_ok] at h
    obtain ⟨a, r, h1, h⟩ := h
    rw [mbind_ok] at h
    obtain ⟨l2, r2, h2, h⟩ := h
    rw [mpure_ok] at h
    rw [h.1]
    simp [ih h2]

theorem mcount_mem {α : Type} {m : M α} {P : α → Prop}
    (hP : ∀ d p a q, m d p = .ok (a, q) → P a)
    {n : Nat} {d : Bytes} {p q : Nat} {l : List α}
    (h : mcount n m d p = .ok (l, q)) : ∀ a ∈ l, P a := by
  induction n generalizing p q l with
  | zero =>
    unfold mcount at h
    rw [mpure_ok] at h
    rw [h.1]
    intro a ha
    cases ha
  | succ k ih =>
    unfold mcount at h
    rw [mbind_ok] at h
    obtain ⟨a, r, h1, h⟩ := h
    rw [mbind_ok] at h
    obtain ⟨l2, r2, h2, h⟩ := h
    rw [mpure_ok] at h
    rw [h.1]
    intro x hx
    rcases List.mem_cons.mp hx with rfl | hx2
    · exact hP d p x r h1
    · exact ih h2 x hx2

theorem mcount_fixed_of_le {α : Type} {m : M α} {k : Nat}
    (hm : ∀ d p, p + k ≤ d.length → ∃ a, m d p = .ok (a, p + k)) :
    ∀ n d p, p + k * n ≤ d.length →
      ∃ l, mcount n m d p = .ok (l, p + k * n) := by
  intro n
  induction n with
  | zero =>
    intro d p hle
    exact ⟨[], by unfold mcount; rw [mpure_ok]; exact ⟨rfl, by omega⟩⟩
  | succ j ih =>
    intro d p hle
    rw [Nat.mul_succ] at hle
    obtain ⟨a, ha⟩ := hm d p (by omega)
    obtain ⟨l, hl⟩ := ih d (p + k) (by omega)
    refine ⟨a :: l, ?_⟩
    unfold mcount
    rw [mbind_eq_of_ok ha]
    rw [mbind_eq_of_ok hl]
    rw [mpure_ok]
    exact ⟨rfl, by rw [Nat.mul_succ]; omega⟩

/-- `sleSpec` agrees with `iN::from_le_bytes` (that is, with `sint` composed
with the unsigned little-endian value) on byte strings whose entries are
genuine bytes. -/
theorem sleSpec_eq_sint {bs : Bytes} (hb : ∀ b ∈ bs, b < 256) (hne : bs ≠ []) :
    sleSpec bs = sint bs.length (leVal bs) := by
  induction bs with
  | nil => exact absurd rfl hne
  | cons b rest ih =>
    cases rest with
    | nil =>
      have hb1 : leVal [b] = b := by unfold leVal leVal; omega
      show (if b < 128 then (b : Int) else (b : Int) - 256) = sint 1 (leVal [b])
      rw [hb1]
      unfold sint
      norm_num
    | cons b2 rest2 =>
      have hrec := ih (fun x hx => hb x (List.mem_cons_of_mem b hx)) (by simp)
      have hblt : b < 256 := hb b (by simp)
      obtain ⟨L, hL⟩ : ∃ L, (b2 :: rest2).length = L := ⟨_, rfl⟩
      obtain ⟨V, hV⟩ : ∃ V, leVal (b2 :: rest2) = V := ⟨_, rfl⟩
      have hL1 : 1 ≤ L := by rw [← hL]; simp
      have hlen : (b :: b2 :: rest2).length = L + 1 := by rw [← hL]; rfl
      have hlev : leVal (b :: b2 :: rest2) = b + 256 * V := by rw [← hV]; rfl
      show (b : Int) + 256 * sleSpec (b2 :: rest2) = _
      rw [hrec, hV, hL, hlen, hlev]
      have hp1 : (2 : Nat) ^ (8 * (L + 1) - 1) = 256 * 2 ^ (8 * L - 1) := by
        have h8 : 8 * (L + 1) - 1 = (8 * L - 1) + 8 := by omega
        rw [h8, pow_add]
        norm_num
        ring
      have hp2 : (2 : Int) ^ (8 * (L + 1)) = 256 * 2 ^ (8 * L) := by
        have h8 : 8 * (L + 1) = 8 * L + 8 := by ring
        rw [h8, pow_add]
        norm_num
        ring
      have hp3 : (2 : Nat) ^ (8 * L) = 2 ^ (8 * L - 1) * 2 := by
        have h8 : 8 * L = (8 * L - 1) + 1 := by omega
        rw [h8, pow_add]
        norm_num
      unfold sint
      rw [hp1]
      split <;> rename_i hs1 <;> split <;> rename_i hs2
      · push_cast
        ring
      · exact absurd hs1 (by omega)
      · exact absurd hs2 (by omega)
      · rw [hp2]
        push_cast
        ring

/-! ## Helpers shared by the claim theorems -/

theorem opt_sign_eq (x : Int) :
    (if 0 ≤ x then some x.toNat else none) = (if x < 0 then none else some x.toNat) := by
  rcases le_or_lt 0 x with h | h
  · rw [if_pos h, if_neg (not_lt.mpr h)]
  · rw [if_neg (not_le.mpr h), if_pos h]

theorem slice_len {d : Bytes} {p w : Nat} (hlen : p + w ≤ d.length) :
    ((d.drop p).take w).length = w := by
  simp [List.length_take, List.length_drop]
  omega

theorem slice_lt {d : Bytes} {p w : Nat} (hb : ∀ b ∈ d, b < 256) :
    ∀ b ∈ (d.drop p).take w, b < 256 :=
  fun b hbmem => hb b (List.drop_subset _ _ (List.take_subset _ _ hbmem))

theorem leVal_lt_pow (bs : Bytes) (hb : ∀ b ∈ bs, b < 256) :
    leVal bs < 256 ^ bs.length := by
  induction bs with
  | nil => unfold leVal; norm_num
  | cons b rest ih =>
    have hblt : b < 256 := hb b (by simp)
    have hrec := ih fun x hx => hb x (List.mem_cons_of_mem b hx)
    show b + 256 * leVal rest < 256 ^ (rest.length + 1)
    rw [pow_succ]
    nlinarith

theorem mcount_fixed_consumes {α : Type} {m : M α} {k : Nat}
    (hm : ∀ d p a q, m d p = .ok (a, q) → q = p + k) :
    ∀ {n : Nat} {d : Bytes} {p q : Nat} {l : List α},
      mcount n m d p = .ok (l, q) → q = p + k * n := by
  intro n
  induction n with
  | zero =>
    intro d p q l h
    unfold mcount at h
    rw [mpure_ok] at h
    omega
  | succ j ih =>
    intro d p q l h
    unfold mcount at h
    rw [mbind_ok] at h
    obtain ⟨a, r, h1, h⟩ := h
    rw [mbind_ok] at h
    obtain ⟨l2, r2, h2, h⟩ := h
    rw [mpure_ok] at h
    have e1 := hm d p a r h1
    have e2 := ih h2
    rw [Nat.mul_succ]
    omega

namespace Reader

theorem read_u32_err {d : Bytes} {p : Nat} (h : ¬ p + 4 ≤ d.length) :
    read_u32 d p = .error Error.Io := by
  unfold read_u32
  exact mbind_eq_of_err (readBin_err h)

theorem read_u32_of_le {d : Bytes} {p : Nat} (hle : p + 4 ≤ d.length) :
    read_u32 d p = .ok (leVal ((d.drop p).take 4), p + 4) :=
  read_u32_ok.mpr ⟨hle, rfl, rfl⟩

end Reader

/-! ## Claim theorems -/

/-- Claim C1: for every configured index width w in {1, 2, 4}, the signed
index decoder reads exactly w bytes, interprets them as the w-byte
little-endian two's-complement signed value, returns `none` exactly when
that value is negative, and returns the value itself as the index
otherwise. -/
theorem c1_signed_index (w : Nat) (hw : w = 1 ∨ w = 2 ∨ w = 4) (d : Bytes) (p : Nat)
    (hlen : p + w ≤ d.length) (hb : ∀ b ∈ d, b < 256) :
    Reader.read_signed_index w d p =
      .ok ((if sleSpec ((d.drop p).take w) < 0 then none
            else some (sleSpec ((d.drop p).take w)).toNat), p + w) := by
  have hsl : ((d.drop p).take w).length = w := slice_len hlen
  have hne : (d.drop p).take w ≠ [] := by
    have hw1 : 1 ≤ w := by rcases hw with rfl | rfl | rfl <;> omega
    exact List.length_pos.mp (by omega)
  have hsle := sleSpec_eq_sint (slice_lt hb) hne
  rw [hsl] at hsle
  rcases hw with rfl | rfl | rfl <;>
  · unfold Reader.read_signed_index
    rw [mbind_eq_of_ok (readBin_ok.mpr ⟨hlen, rfl, rfl⟩)]
    rw [hsle, ← opt_sign_eq]
    exact mpure_ok.mpr ⟨rfl, rfl⟩

/-- Claim C1 witness: at width 1 the byte 0xFF decodes to absent, while the
byte 0x05 at width 2 (with a zero high byte) decodes to index 5. -/
theorem c1_witness :
    Reader.read_signed_index 1 [255] 0 = .ok (none, 1) ∧
    Reader.read_signed_index 2 [5, 0] 0 = .ok (some 5, 2) := by
  have h1 := c1_signed_index 1 (Or.inl rfl) [255] 0 (by decide) (by decide)
  have h2 := c1_signed_index 2 (Or.inr (Or.inl rfl)) [5, 0] 0 (by decide) (by decide)
  rw [h1, h2]
  constructor <;> (norm_num [sleSpec] <;> decide)

/-- Claim C2: the vertex-index decoder reads the configured width; at widths
1 and 2 it interprets the bytes as unsigned and always produces an index,
while at width 4 it interprets them as signed and yields absent exactly for
negative values. -/
theorem c2_vertex_index (c : Cfg) (d : Bytes) (p : Nat) (hb : ∀ b ∈ d, b < 256)
    (hlen : p + c.vertex_index ≤ d.length) :
    ((c.vertex_index = 1 ∨ c.vertex_index = 2) →
      Reader.read_vertex_index c d p =
        .ok (some (leVal ((d.drop p).take c.vertex_index)), p + c.vertex_index)) ∧
    (c.vertex_index = 4 →
      Reader.read_vertex_index c d p =
        .ok ((if sleSpec ((d.drop p).take 4) < 0 then none
              else some (sleSpec ((d.drop p).take 4)).toNat), p + 4)) := by
  constructor
  · intro hw
    unfold Reader.read_vertex_index
    rcases hw with hw | hw <;>
    · rw [hw] at hlen ⊢
      rw [mbind_eq_of_ok (readBin_ok.mpr ⟨hlen, rfl, rfl⟩)]
      exact mpure_ok.mpr ⟨rfl, rfl⟩
  · intro hw
    have hsl : ((d.drop p).take 4).length = 4 := slice_len (hw ▸ hlen)
    have hne : (d.drop p).take 4 ≠ [] := List.length_pos.mp (by omega)
    have hsle := sleSpec_eq_sint (slice_lt hb) hne
    rw [hsl] at hsle
    unfold Reader.read_vertex_index
    rw [hw] at hlen ⊢
    rw [mbind_eq_of_ok (readBin_ok.mpr ⟨hlen, rfl, rfl⟩)]
    rw [hsle, ← opt_sign_eq]
    exact mpure_ok.mpr ⟨rfl, rfl⟩

/-- Claim C2 witness: at width 1 the byte 0xC8 (200) still decodes to a
concrete index, and at width 4 the bytes of -1 decode to absent. -/
theorem c2_witness :
    Reader.read_vertex_index cfg1 [200] 0 = .ok (some 200, 1) ∧
    Reader.read_vertex_index cfg4 [255, 255, 255, 255] 0 = .ok (none, 4) := by
  have h1 := (c2_vertex_index cfg1 [200] 0 (by decide) (by decide)).1 (Or.inl (by decide))
  have h2 := (c2_vertex_index cfg4 [255, 255, 255, 255] 0 (by decide) (by decide)).2 (by decide)
  rw [h1, h2]
  constructor <;> norm_num [sleSpec, leVal, cfg1, cfg4]

/-- Claim C9: a string field is a 32-bit length followed by exactly that
many raw bytes, decoded totally (lossily) under the session encoding; the
decoder can only fail with an I/O error, never with a structural one. -/
theorem c9_read_string (c : Cfg) (d : Bytes) (p : Nat) :
    Reader.read_string c d p = .error Error.Io ∨
    ∃ s q, Reader.read_string c d p = .ok (s, q) ∧
      q = p + 4 + leVal ((d.drop p).take 4) ∧
      s = decodeText c.encoding ((d.drop (p + 4)).take (leVal ((d.drop p).take 4))) := by
  by_cases h4 : p + 4 ≤ d.length
  · by_cases hL : p + 4 + leVal ((d.drop p).take 4) ≤ d.length
    · right
      exact ⟨_, _, Reader.read_string_ok.mpr ⟨h4, hL, rfl, rfl⟩, rfl, rfl⟩
    · left
      unfold Reader.read_string
      rw [mbind_eq_of_ok (Reader.read_u32_of_le h4)]
      exact mbind_eq_of_err (readBin_err hL)
  · left
    unfold Reader.read_string
    exact mbind_eq_of_err (Reader.read_u32_err h4)

/-- Claim C10: the face decoder accepts any element count, including counts
that are not multiples of 3; it reads exactly that many 32-bit values and
returns a list of exactly that length, with no divisibility check. -/
theorem c10_faces (d : Bytes) (p : Nat) :
    (∀ l q, Reader.faces d p = .ok (l, q) →
      l.length = leVal ((d.drop p).take 4) ∧ q = p + 4 + 4 * l.length) ∧
    (p + 4 + 4 * leVal ((d.drop p).take 4) ≤ d.length →
      ∃ l, Reader.faces d p = .ok (l, p + 4 + 4 * leVal ((d.drop p).take 4)) ∧
        l.length = leVal ((d.drop p).take 4)) := by
  constructor
  · intro l q h
    unfold Reader.faces at h
    rw [mbind_ok] at h
    obtain ⟨len, r, h1, h2⟩ := h
    rw [Reader.read_u32_ok] at h1
    obtain ⟨hle, rfl, rfl⟩ := h1
    have hlen := mcount_len h2
    have hcons := mcount_fixed_consumes
      (fun d p a q hq => (Reader.read_u32_ok.mp hq).2.2) h2
    omega
  · intro hle
    obtain ⟨l, hl⟩ := mcount_fixed_of_le
      (fun d p hple => ⟨_, Reader.read_u32_of_le hple⟩)
      (leVal ((d.drop p).take 4)) d (p + 4) (by omega)
    refine ⟨l, ?_, mcount_len hl⟩
    unfold Reader.faces
    rw [mbind_eq_of_ok (Reader.read_u32_of_le (by omega))]
    exact hl

/-- Claim C10 witness: a face section with count 2 (not a multiple of 3)
decodes to a list of exactly two indices. -/
theorem c10_witness :
    leVal ((d10.drop 0).take 4) = 2 ∧
    (([7, 9] : List Nat).length = leVal ((d10.drop 0).take 4) ∧
      12 = 0 + 4 + 4 * ([7, 9] : List Nat).length) ∧
    ∃ l, Reader.faces d10 0 = .ok (l, 0 + 4 + 4 * leVal ((d10.drop 0).take 4)) ∧
      l.length = leVal ((d10.drop 0).take 4) :=
  ⟨by norm_num [d10, leVal],
   (c10_faces d10 0).1 [7, 9] 12 (by rfl),
   (c10_faces d10 0).2 (by norm_num [d10, leVal])⟩

/-- Claim C5: a material whose triangle-index count is not a multiple of 3
is rejected with the structural error naming `material::index_count`; a
successfully decoded material has a count that is a multiple of 3 and equal
to the 32-bit value read from the last four consumed bytes of its record. -/
theorem c5_material_index_count (c : Cfg) (d : Bytes) (p : Nat) :
    (∀ m : Material, m.index_count % 3 ≠ 0 →
      Reader.material_finish m d p = .error (Error.InvalidData "material::index_count")) ∧
    (∀ m q, Reader.material c d p = .ok (m, q) →
      m.index_count % 3 = 0 ∧ m.index_count = leVal ((d.drop (q - 4)).take 4)) := by
  constructor
  · intro m hm
    unfold Reader.material_finish
    rw [if_pos hm]
    rfl
  · intro m q h
    unfold Reader.material at h
    rw [mbind_ok] at h
    obtain ⟨_, r1, -, h⟩ := h
    rw [mbind_ok] at h
    obtain ⟨_, r2, -, h⟩ := h
    rw [mbind_ok] at h
    obtain ⟨_, r3, -, h⟩ := h
    rw [mbind_ok] at h
    obtain ⟨_, r4, -, h⟩ := h
    rw [mbind_ok] at h
    obtain ⟨_, r5, -, h⟩ := h
    rw [mbind_ok] at h
    obtain ⟨_, r6, -, h⟩ := h
    rw [mbind_ok] at h
    obtain ⟨_, r7, -, h⟩ := h
    rw [mbind_ok] at h
    obtain ⟨_, r8, -, h⟩ := h
    rw [mbind_ok] at h
    obtain ⟨_, r9, -, h⟩ := h
    rw [mbind_ok] at h
    obtain ⟨_, r10, -, h⟩ := h
    rw [mbind_ok] at h
    obtain ⟨_, r11, -, h⟩ := h
    rw [mbind_ok] at h
    obtain ⟨_, r12, -, h⟩ := h
    rw [mbind_ok] at h
    obtain ⟨_, r13, -, h⟩ := h
    rw [mbind_ok] at h
    obtain ⟨_, r14, -, h⟩ := h
    rw [mbind_ok] at h
    obtain ⟨_, r15, -, h⟩ := h
    rw [mbind_ok] at h
    obtain ⟨_, r16, -, h⟩ := h
    rw [mbind_ok] at h
    obtain ⟨cnt, r17, hcnt, h⟩ := h
    rw [Reader.read_u32_ok] at hcnt
    obtain ⟨hle, rfl, rfl⟩ := hcnt
    unfold Reader.material_finish at h
    split at h
    · rw [mthrow_not_ok] at h
      exact h.elim
    · rename_i hcond
      rw [mpure_ok] at h
      obtain ⟨rfl, rfl⟩ := h
      have h3 : leVal ((d.drop r16).take 4) % 3 = 0 := by simpa using hcond
      refine ⟨by simpa using h3, ?_⟩
      show leVal ((d.drop r16).take 4) = leVal ((d.drop (r16 + 4 - 4)).take 4)
      rw [show r16 + 4 - 4 = r16 from by omega]

/-- Claim C5 witness: a material value with index count 4 is rejected by the
finishing check, and the 86-byte record `dC5` (count 3) decodes to a
material whose count is the multiple of 3 read from its last four bytes. -/
theorem c5_witness :
    Reader.material_finish matBad [] 0 = .error (Error.InvalidData "material::index_count") ∧
    (matC5.index_count % 3 = 0 ∧ matC5.index_count = leVal ((dC5.drop (86 - 4)).take 4)) :=
  ⟨(c5_material_index_count cfg1 [] 0).1 matBad (by decide),
   (c5_material_index_count cfg1 dC5 0).2 matC5 86 (by rfl)⟩

/-- Claim C4: every variant-selecting tag byte outside its recognized set
(weight kind, sphere mode, toon kind, morph panel, morph kind,
display-element kind, rigid shape, rigid method, joint type) turns the
decode into the structural error naming that field; as the whole-record
conjunct for `vertex` shows, the record containing the bad tag is never
produced and the error propagates. -/
theorem c4_unknown_tags (c : Cfg) (t : Nat) (d : Bytes) (p : Nat) :
    (4 ≤ t → Reader.vertex_weight c t d p = .error (Error.InvalidData "vertex::weight")) ∧
    (4 ≤ t → Reader.sphere_mode_of t d p = .error (Error.InvalidData "material::sphere_mode")) ∧
    (2 ≤ t → Reader.toon_of c t d p = .error (Error.InvalidData "material::toon")) ∧
    (5 ≤ t → Reader.panel_of t d p = .error (Error.InvalidData "morph::panel")) ∧
    (∀ len, 9 ≤ t →
      Reader.morph_kind_of c t len d p = .error (Error.InvalidData "morph::kind")) ∧
    (2 ≤ t →
      Reader.display_element_of c t d p = .error (Error.InvalidData "display_group::elements")) ∧
    (3 ≤ t → Reader.shape_of t d p = .error (Error.InvalidData "rigid::shape")) ∧
    (3 ≤ t → Reader.method_of t d p = .error (Error.InvalidData "rigid::method")) ∧
    (t ≠ 0 → Reader.joint_type_check t d p = .error (Error.InvalidData "joint::type")) ∧
    (p + 33 + 16 * c.extended_uv ≤ d.length →
      4 ≤ leVal ((d.drop (p + 32 + 16 * c.extended_uv)).take 1) →
      Reader.vertex c d p = .error (Error.InvalidData "vertex::weight")) := by
  refine ⟨?_, ?_, ?_, ?_, ?_, ?_, ?_, ?_, ?_, ?_⟩
  · intro ht
    obtain ⟨k, rfl⟩ : ∃ k, t = k + 4 := ⟨t - 4, by omega⟩
    rfl
  · intro ht
    obtain ⟨k, rfl⟩ : ∃ k, t = k + 4 := ⟨t - 4, by omega⟩
    rfl
  · intro ht
    obtain ⟨k, rfl⟩ : ∃ k, t = k + 2 := ⟨t - 2, by omega⟩
    rfl
  · intro ht
    obtain ⟨k, rfl⟩ : ∃ k, t = k + 5 := ⟨t - 5, by omega⟩
    rfl
  · intro len ht
    obtain ⟨k, rfl⟩ : ∃ k, t = k + 9 := ⟨t - 9, by omega⟩
    rfl
  · intro ht
    obtain ⟨k, rfl⟩ : ∃ k, t = k + 2 := ⟨t - 2, by omega⟩
    rfl
  · intro ht
    obtain ⟨k, rfl⟩ : ∃ k, t = k + 3 := ⟨t - 3, by omega⟩
    rfl
  · intro ht
    obtain ⟨k, rfl⟩ : ∃ k, t = k + 3 := ⟨t - 3, by omega⟩
    rfl
  · intro ht
    unfold Reader.joint_type_check
    rw [if_pos ht]
    rfl
  · intro hlen htag
    unfold Reader.vertex
    obtain ⟨v1, hv1⟩ := Reader.read_vec3_of_le (show p + 12 ≤ d.length by omega)
    rw [mbind_eq_of_ok hv1]
    obtain ⟨v2, hv2⟩ := Reader.read_vec3_of_le (show p + 12 + 12 ≤ d.length by omega)
    rw [mbind_eq_of_ok hv2]
    obtain ⟨v3, hv3⟩ := Reader.read_vec2_of_le (show p + 12 + 12 + 8 ≤ d.length by omega)
    rw [mbind_eq_of_ok hv3]
    rw [show p + 12 + 12 + 8 = p + 32 from by omega]
    obtain ⟨l, hl⟩ := mcount_fixed_of_le
      (fun d p hple => Reader.read_vec4_of_le hple)
      c.extended_uv d (p + 32) (by omega)
    rw [mbind_eq_of_ok hl]
    rw [mbind_eq_of_ok (Reader.read_u8_ok.mpr ⟨by omega, rfl, rfl⟩)]
    obtain ⟨k, hk⟩ : ∃ k, leVal ((d.drop (p + 32 + 16 * c.extended_uv)).take 1) = k + 4 :=
      ⟨leVal ((d.drop (p + 32 + 16 * c.extended_uv)).take 1) - 4, by omega⟩
    rw [hk]
    exact mbind_eq_of_err (by rfl)

/-- Claim C4 witness: tag byte 9 (and 1 for the joint type) hits the error
arm of every variant match, and a vertex record whose weight-kind byte is 4
aborts the whole vertex decode with the weight error. -/
theorem c4_witness :
    Reader.vertex_weight cfg1 9 [] 0 = .error (Error.InvalidData "vertex::weight") ∧
    Reader.sphere_mode_of 9 [] 0 = .error (Error.InvalidData "material::sphere_mode") ∧
    Reader.toon_of cfg1 9 [] 0 = .error (Error.InvalidData "material::toon") ∧
    Reader.panel_of 9 [] 0 = .error (Error.InvalidData "morph::panel") ∧
    Reader.morph_kind_of cfg1 9 3 [] 0 = .error (Error.InvalidData "morph::kind") ∧
    Reader.display_element_of cfg1 9 [] 0 = .error (Error.InvalidData "display_group::elements") ∧
    Reader.shape_of 9 [] 0 = .error (Error.InvalidData "rigid::shape") ∧
    Reader.method_of 9 [] 0 = .error (Error.InvalidData "rigid::method") ∧
    Reader.joint_type_check 1 [] 0 = .error (Error.InvalidData "joint::type") ∧
    Reader.vertex cfg1 (List.replicate 32 0 ++ [4]) 0 =
      .error (Error.InvalidData "vertex::weight") := by
  have h9 := c4_unknown_tags cfg1 9 [] 0
  have h1 := c4_unknown_tags cfg1 1 [] 0
  have hv := c4_unknown_tags cfg1 0 (List.replicate 32 0 ++ [4]) 0
  exact ⟨h9.1 (by omega), h9.2.1 (by omega), h9.2.2.1 (by omega), h9.2.2.2.1 (by omega),
         h9.2.2.2.2.1 3 (by omega), h9.2.2.2.2.2.1 (by omega),
         h9.2.2.2.2.2.2.1 (by omega), h9.2.2.2.2.2.2.2.1 (by omega),
         h1.2.2.2.2.2.2.2.2.1 (by omega),
         hv.2.2.2.2.2.2.2.2.2 (by decide) (by decide)⟩

/-- Claim C6: truncating a stream strictly inside the region a successful
decode consumes makes the decode fail with the I/O error, never with a
structural one. -/
theorem c6_truncation (d : Bytes) (m : Pmx) (k n : Nat)
    (h : Reader.read d 0 = .ok (m, k)) (hn : n < k) :
    Reader.read (d.take n) 0 = .error Error.Io :=
  ((Reader.good_read.1 d 0 m k h).2 n (Nat.zero_le n)).2 hn

/-- Claim C6 witness: the 69-byte minimal stream decodes successfully, and
cutting it to 68 bytes makes the decode fail with `Error.Io`. -/
theorem c6_witness : Reader.read (dMin.take 68) 0 = .error Error.Io :=
  c6_truncation dMin pmxMin 69 68 (by rfl) (by omega)

/-- Claim C7: no input stream can make the decoder return the reserved
`UnsupportedVersion` error; the version float is read but never checked. -/
theorem c7_no_unsupported_version (d : Bytes) (p : Nat) :
    notUnsupported (Reader.read d p) = true := by
  cases hr : Reader.read d p with
  | ok v => rfl
  | error e =>
    cases e with
    | UnsupportedVersion => exact absurd hr (Reader.good_read.2 d p)
    | InvalidData s => rfl
    | Io => rfl

namespace Reader

theorem header_ext_uv {d : Bytes} {p : Nat} {h : Header} {q : Nat}
    (hok : header d p = .ok (h, q)) (hb : ∀ b ∈ d, b < 256) :
    h.extended_uv < 256 := by
  unfold header at hok
  rw [mbind_ok] at hok
  obtain ⟨magic, r1, -, hok⟩ := hok
  by_cases hmagic : magic = [80, 77, 88, 32]
  · rw [if_pos hmagic] at hok
    rw [mbind_ok] at hok
    obtain ⟨_, r2, -, hok⟩ := hok
    rw [mbind_ok] at hok
    obtain ⟨bytes, r3, -, hok⟩ := hok
    by_cases hbytes : bytes = 8
    · rw [if_pos hbytes] at hok
      rw [mbind_ok] at hok
      obtain ⟨encv, r4, -, hok⟩ := hok
      rw [mbind_ok] at hok
      obtain ⟨enc, r5, -, hok⟩ := hok
      rw [mbind_ok] at hok
      obtain ⟨euv, r6, heuv, hok⟩ := hok
      rw [read_u8_ok] at heuv
      obtain ⟨hle6, rfl, rfl⟩ := heuv
      rw [mbind_ok] at hok
      obtain ⟨_, r7, -, hok⟩ := hok
      rw [mbind_ok] at hok
      obtain ⟨_, r8, -, hok⟩ := hok
      rw [mbind_ok] at hok
      obtain ⟨_, r9, -, hok⟩ := hok
      rw [mbind_ok] at hok
      obtain ⟨_, r10, -, hok⟩ := hok
      rw [mbind_ok] at hok
      obtain ⟨_, r11, -, hok⟩ := hok
      rw [mbind_ok] at hok
      obtain ⟨_, r12, -, hok⟩ := hok
      rw [mpure_ok] at hok
      obtain ⟨rfl, rfl⟩ := hok
      have hlt := leVal_lt_pow ((d.drop r5).take 1) (slice_lt hb)
      rw [slice_len hle6] at hlt
      simpa using hlt
    · rw [if_neg hbytes] at hok
      rw [mthrow_not_ok] at hok
      exact hok.elim
  · rw [if_neg hmagic] at hok
    rw [mthrow_not_ok] at hok
    exact hok.elim

theorem vertex_ext_uv_len {c : Cfg} {d : Bytes} {p : Nat} {v : Vertex} {q : Nat}
    (h : vertex c d p = .ok (v, q)) : v.extended_uv.length = c.extended_uv := by
  unfold vertex at h
  rw [mbind_ok] at h
  obtain ⟨_, r1, -, h⟩ := h
  rw [mbind_ok] at h
  obtain ⟨_, r2, -, h⟩ := h
  rw [mbind_ok] at h
  obtain ⟨_, r3, -, h⟩ := h
  rw [mbind_ok] at h
  obtain ⟨l, r4, hl, h⟩ := h
  rw [mbind_ok] at h
  obtain ⟨_, r5, -, h⟩ := h
  rw [mbind_ok] at h
  obtain ⟨_, r6, -, h⟩ := h
  rw [mbind_ok] at h
  obtain ⟨_, r7, -, h⟩ := h
  rw [mpure_ok] at h
  obtain ⟨rfl, rfl⟩ := h
  simpa using mcount_len hl

theorem vertices_ext_uv {c : Cfg} {d : Bytes} {p : Nat} {vl : List Vertex} {q : Nat}
    (h : vertices c d p = .ok (vl, q)) :
    ∀ v ∈ vl, v.extended_uv.length = c.extended_uv := by
  unfold vertices at h
  rw [mbind_ok] at h
  obtain ⟨len, r, -, h⟩ := h
  exact mcount_mem (fun d p v q hv => vertex_ext_uv_len hv) h

end Reader

/-- Claim C8, amended: every successfully decoded model carries the
extra-UV count byte exactly as read (any value 0-255; the decoder never
range-checks it against 0-4), and every decoded vertex carries exactly that
many extra UV vectors. -/
theorem c8_extended_uv (d : Bytes) (p : Nat) (hb : ∀ b ∈ d, b < 256) :
    ∀ m q, Reader.read d p = .ok (m, q) →
      m.header.extended_uv < 256 ∧
      ∀ v ∈ m.vertices, v.extended_uv.length = m.header.extended_uv := by
  intro m q h
  unfold Reader.read at h
  rw [mbind_ok] at h
  obtain ⟨hd, r1, hhdr, h⟩ := h
  rw [mbind_ok] at h
  obtain ⟨_, r2, -, h⟩ := h
  rw [mbind_ok] at h
  obtain ⟨vl, r3, hvl, h⟩ := h
  rw [mbind_ok] at h
  obtain ⟨_, r4, -, h⟩ := h
  rw [mbind_ok] at h
  obtain ⟨_, r5, -, h⟩ := h
  rw [mbind_ok] at h
  obtain ⟨_, r6, -, h⟩ := h
  rw [mbind_ok] at h
  obtain ⟨_, r7, -, h⟩ := h
  rw [mbind_ok] at h
  obtain ⟨_, r8, -, h⟩ := h
  rw [mbind_ok] at h
  obtain ⟨_, r9, -, h⟩ := h
  rw [mbind_ok] at h
  obtain ⟨_, r10, -, h⟩ := h
  rw [mbind_ok] at h
  obtain ⟨_, r11, -, h⟩ := h
  rw [mpure_ok] at h
  obtain ⟨rfl, rfl⟩ := h
  refine ⟨by simpa using Reader.header_ext_uv hhdr hb, ?_⟩
  intro v hv
  have hlen := Reader.vertices_ext_uv hvl v (by simpa using hv)
  simpa [cfgOf] using hlen

/-- Claim C8 counterexample: the stream `dC8` decodes successfully although
its extra-UV count byte is 5, outside the documented range 0-4; the claim
that every decoded model has a count in 0-4 is false of the code. -/
theorem c8_counterexample :
    Reader.read dC8 0 = .ok (pmxC8, 69) ∧ pmxC8.header.extended_uv = 5 :=
  ⟨by rfl, by rfl⟩

/-- Claim C8 witness: applying the amended statement to the decode of `dC8`
bounds its count byte by 255 and confirms the per-vertex agreement. -/
theorem c8_witness :
    pmxC8.header.extended_uv < 256 ∧
    ∀ v ∈ pmxC8.vertices, v.extended_uv.length = pmxC8.header.extended_uv :=
  c8_extended_uv dC8 0 (by decide) pmxC8 69 (by rfl)

/-! ## Bone flag-gating facts (claim C3) -/

theorem beq_and_two_pow (n k : Nat) : (n &&& 2 ^ k == 2 ^ k) = n.testBit k := by
  rw [Nat.and_two_pow]
  have hpos : 0 < 2 ^ k := pow_pos (by norm_num) k
  cases h : n.testBit k
  · simp
    omega
  · simp

theorem mask_bit5 (n : Nat) : (n &&& 32 == 32) = n.testBit 5 := by
  rw [show (32 : Nat) = 2 ^ 5 from by norm_num]
  exact beq_and_two_pow n 5

theorem mask_bit8 (n : Nat) : (n &&& 256 == 256) = n.testBit 8 := by
  rw [show (256 : Nat) = 2 ^ 8 from by norm_num]
  exact beq_and_two_pow n 8

theorem mask_bit9 (n : Nat) : (n &&& 512 == 512) = n.testBit 9 := by
  rw [show (512 : Nat) = 2 ^ 9 from by norm_num]
  exact beq_and_two_pow n 9

theorem mask_bit10 (n : Nat) : (n &&& 1024 == 1024) = n.testBit 10 := by
  rw [show (1024 : Nat) = 2 ^ 10 from by norm_num]
  exact beq_and_two_pow n 10

theorem mask_bit11 (n : Nat) : (n &&& 2048 == 2048) = n.testBit 11 := by
  rw [show (2048 : Nat) = 2 ^ 11 from by norm_num]
  exact beq_and_two_pow n 11

theorem mask_bit13 (n : Nat) : (n &&& 8192 == 8192) = n.testBit 13 := by
  rw [show (8192 : Nat) = 2 ^ 13 from by norm_num]
  exact beq_and_two_pow n 13

namespace Reader

theorem read_bone_index_consumes {c : Cfg} {d : Bytes} {p q : Nat} {o : Option Nat}
    (h : read_bone_index c d p = .ok (o, q)) : q = p + c.bone_index :=
  (read_signed_index_consumes h).2

theorem bone_connected_to_consumes {c : Cfg} {flags : Nat} {d : Bytes} {p q : Nat}
    {ct : ConnectedTo} (h : bone_connected_to c flags d p = .ok (ct, q)) :
    q = p + (if flags.testBit 0 then c.bone_index else 12) := by
  unfold bone_connected_to at h
  obtain ⟨w, hw⟩ : ∃ w, flags &&& 1 = w := ⟨_, rfl⟩
  rw [hw] at h
  have hmod : flags % 2 = w := by rw [← Nat.and_one_is_mod, hw]
  split at h
  · have ht : flags.testBit 0 = false := by
      rw [Nat.testBit_zero]
      simp [hmod]
    rw [mbind_ok] at h
    obtain ⟨v, r, hv, h⟩ := h
    rw [mpure_ok] at h
    obtain ⟨-, rfl⟩ := h
    rw [ht]
    simp [(read_vec3_consumes hv).2]
  · have ht : flags.testBit 0 = true := by
      rw [Nat.testBit_zero]
      simp [hmod]
    rw [mbind_ok] at h
    obtain ⟨b, r, hb, h⟩ := h
    rw [mpure_ok] at h
    obtain ⟨-, rfl⟩ := h
    rw [ht]
    simp [read_bone_index_consumes hb]
  · rw [mthrow_not_ok] at h
    exact h.elim

theorem bone_addition_ok {c : Cfg} {flags : Nat} {d : Bytes} {p q : Nat}
    {o : Option Addition} (h : bone_addition c flags d p = .ok (o, q)) :
    o.isSome = (flags.testBit 8 || flags.testBit 9) ∧
    q = p + (if flags.testBit 8 || flags.testBit 9 then c.bone_index + 4 else 0) := by
  unfold bone_addition at h
  rw [show (0x0100 : Nat) = 256 from rfl, show (0x0200 : Nat) = 512 from rfl,
    mask_bit8, mask_bit9] at h
  split at h
  · rename_i hcond
    have hfalse : (flags.testBit 8 || flags.testBit 9) = false := by
      cases hA : flags.testBit 8 <;> cases hB : flags.testBit 9 <;> simp_all
    rw [mpure_ok] at h
    obtain ⟨rfl, rfl⟩ := h
    rw [hfalse]
    simp
  · rename_i hcond
    have htrue : (flags.testBit 8 || flags.testBit 9) = true := by
      cases hA : flags.testBit 8 <;> cases hB : flags.testBit 9 <;> simp_all
    rw [mbind_ok] at h
    obtain ⟨b, r, hb, h⟩ := h
    rw [mbind_ok] at h
    obtain ⟨ratio, r2, hr, h⟩ := h
    rw [mpure_ok] at h
    obtain ⟨rfl, rfl⟩ := h
    rw [htrue]
    have e1 := read_bone_index_consumes hb
    have e2 := (read_f32_ok.mp hr).2.2
    simp
    omega

theorem bone_fixed_pole_ok {flags : Nat} {d : Bytes} {p q : Nat} {o : Option Vec3}
    (h : bone_fixed_pole flags d p = .ok (o, q)) :
    o.isSome = flags.testBit 10 ∧ q = p + (if flags.testBit 10 then 12 else 0) := by
  unfold bone_fixed_pole at h
  rw [show (0x0400 : Nat) = 1024 from rfl, mask_bit10] at h
  split at h
  · rename_i hcond
    rw [mbind_ok] at h
    obtain ⟨v, r, hv, h⟩ := h
    rw [mpure_ok] at h
    obtain ⟨rfl, rfl⟩ := h
    rw [hcond]
    simp [(read_vec3_consumes hv).2]
  · rename_i hcond
    have hfalse : flags.testBit 10 = false := by simpa using hcond
    rw [mpure_ok] at h
    obtain ⟨rfl, rfl⟩ := h
    rw [hfalse]
    simp

theorem bone_local_pole_ok {flags : Nat} {d : Bytes} {p q : Nat} {o : Option LocalPole}
    (h : bone_local_pole flags d p = .ok (o, q)) :
    o.isSome = flags.testBit 11 ∧ q = p + (if flags.testBit 11 then 24 else 0) := by
  unfold bone_local_pole at h
  rw [show (0x0800 : Nat) = 2048 from rfl, mask_bit11] at h
  split at h
  · rename_i hcond
    rw [mbind_ok] at h
    obtain ⟨x, r, hx, h⟩ := h
    rw [mbind_ok] at h
    obtain ⟨z, r2, hz, h⟩ := h
    rw [mpure_ok] at h
    obtain ⟨rfl, rfl⟩ := h
    rw [hcond]
    have e1 := (read_vec3_consumes hx).2
    have e2 := (read_vec3_consumes hz).2
    simp
    omega
  · rename_i hcond
    have hfalse : flags.testBit 11 = false := by simpa using hcond
    rw [mpure_ok] at h
    obtain ⟨rfl, rfl⟩ := h
    rw [hfalse]
    simp

theorem bone_external_parent_ok {flags : Nat} {d : Bytes} {p q : Nat} {o : Option Nat}
    (h : bone_external_parent flags d p = .ok (o, q)) :
    q = p + (if flags.testBit 13 then 4 else 0) ∧
    (flags.testBit 13 = false → o = none) ∧
    (flags.testBit 13 = true →
      o = (if 0 ≤ sint 4 (leVal ((d.drop p).take 4))
           then some (sint 4 (leVal ((d.drop p).take 4))).toNat else none)) := by
  unfold bone_external_parent at h
  rw [show (0x2000 : Nat) = 8192 from rfl, mask_bit13] at h
  split at h
  · rename_i hcond
    rw [mbind_ok] at h
    obtain ⟨v, r, hv, h⟩ := h
    rw [read_i32_ok] at hv
    obtain ⟨hle, rfl, rfl⟩ := hv
    rw [mpure_ok] at h
    obtain ⟨rfl, rfl⟩ := h
    refine ⟨by rw [hcond]; simp, ?_, fun _ => rfl⟩
    intro hff
    rw [hcond] at hff
    exact absurd hff (by simp)
  · rename_i hcond
    have hfalse : flags.testBit 13 = false := by simpa using hcond
    rw [mpure_ok] at h
    obtain ⟨rfl, rfl⟩ := h
    refine ⟨by rw [hfalse]; simp, fun _ => rfl, ?_⟩
    intro htt
    rw [hfalse] at htt
    exact absurd htt (by simp)

theorem bone_ik_ok {c : Cfg} {flags : Nat} {d : Bytes} {p q : Nat} {o : Option Ik}
    (h : bone_ik c flags d p = .ok (o, q)) :
    o.isSome = flags.testBit 5 ∧ p ≤ q ∧ (flags.testBit 5 = false → q = p) := by
  have hmono := ((good_bone_ik c flags).1 d p o q h).1
  unfold bone_ik at h
  rw [show (0x0020 : Nat) = 32 from rfl, mask_bit5] at h
  split at h
  · rename_i hcond
    rw [mbind_ok] at h
    obtain ⟨b, r, -, h⟩ := h
    rw [mbind_ok] at h
    obtain ⟨lc, r2, -, h⟩ := h
    rw [mbind_ok] at h
    obtain ⟨ang, r3, -, h⟩ := h
    rw [mbind_ok] at h
    obtain ⟨ll, r4, -, h⟩ := h
    rw [mbind_ok] at h
    obtain ⟨links, r5, -, h⟩ := h
    rw [mpure_ok] at h
    obtain ⟨rfl, rfl⟩ := h
    exact ⟨by simp [hcond], hmono, fun hff => by rw [hcond] at hff; cases hff⟩
  · rename_i hcond
    have hfalse : flags.testBit 5 = false := by simpa using hcond
    rw [mpure_ok] at h
    obtain ⟨rfl, rfl⟩ := h
    exact ⟨by simp [hfalse], le_refl _, fun _ => rfl⟩

end Reader

/-- Claim C3, amended: in the flag-gated tail of a bone record, the
addition, fixed-pole, local-pole and IK payloads are present in the decoded
bone exactly when their flag bits are set; the external-parent payload is
read (4 bytes) exactly when bit 13 is set but appears in the decoded value
only when the stored 32-bit value is also non-negative; and the bytes
consumed are exactly the sum of the enabled payloads, so an unset bit
consumes zero additional bytes. -/
theorem c3_bone_flag_gating (c : Cfg) (name name_en : PmxString) (position : Vec3)
    (parent : Option Nat) (dh : Int) (flags : Nat) (d : Bytes) (p : Nat) (b : Bone)
    (q : Nat)
    (h : Reader.bone_rest c name name_en position parent dh flags d p = .ok (b, q)) :
    b.addition.isSome = (flags.testBit 8 || flags.testBit 9) ∧
    b.fixed_pole.isSome = flags.testBit 10 ∧
    b.local_pole.isSome = flags.testBit 11 ∧
    b.ik.isSome = flags.testBit 5 ∧
    (b.external_parent.isSome = true → flags.testBit 13 = true) ∧
    (flags.testBit 13 = true →
      b.external_parent =
        (if 0 ≤ sint 4 (leVal ((d.drop (extPos c flags p)).take 4))
         then some (sint 4 (leVal ((d.drop (extPos c flags p)).take 4))).toNat
         else none)) ∧
    ∃ ikBytes,
      q = p + (if flags.testBit 0 then c.bone_index else 12)
        + (if flags.testBit 8 || flags.testBit 9 then c.bone_index + 4 else 0)
        + (if flags.testBit 10 then 12 else 0)
        + (if flags.testBit 11 then 24 else 0)
        + (if flags.testBit 13 then 4 else 0)
        + (if flags.testBit 5 then ikBytes else 0) := by
  unfold Reader.bone_rest at h
  rw [mbind_ok] at h
  obtain ⟨ct, r1, h1, h⟩ := h
  rw [mbind_ok] at h
  obtain ⟨ad, r2, h2, h⟩ := h
  rw [mbind_ok] at h
  obtain ⟨fp, r3, h3, h⟩ := h
  rw [mbind_ok] at h
  obtain ⟨lp, r4, h4, h⟩ := h
  rw [mbind_ok] at h
  obtain ⟨ep, r5, h5, h⟩ := h
  rw [mbind_ok] at h
  obtain ⟨ikv, r6, h6, h⟩ := h
  rw [mpure_ok] at h
  obtain ⟨rfl, rfl⟩ := h
  have e1 := Reader.bone_connected_to_consumes h1
  obtain ⟨ha, e2⟩ := Reader.bone_addition_ok h2
  obtain ⟨hf, e3⟩ := Reader.bone_fixed_pole_ok h3
  obtain ⟨hl, e4⟩ := Reader.bone_local_pole_ok h4
  obtain ⟨e5, hep0, hep1⟩ := Reader.bone_external_parent_ok h5
  obtain ⟨hik, hm6, hik0⟩ := Reader.bone_ik_ok h6
  have hr4 : r4 = extPos c flags p := by
    unfold extPos
    omega
  refine ⟨ha, hf, hl, hik, ?_, ?_, ?_⟩
  · intro hsome
    replace hsome : ep.isSome = true := hsome
    cases hbit : flags.testBit 13
    · rw [hep0 hbit] at hsome
      exact absurd hsome (by simp)
    · rfl
  · intro hbit
    show ep = _
    rw [← hr4]
    exact hep1 hbit
  · refine ⟨q - r5, ?_⟩
    show q = _
    cases hb5 : flags.testBit 5
    · have h65 := hik0 hb5
      rw [if_neg (show ¬(false = true) from by simp)]
      omega
    · rw [if_pos rfl]
      omega

/-- Claim C3 counterexample: in the bone record `dC3` the 16-bit flag word
read from offset 25 is 0x2000 — bit 13, the external-parent gate, is set —
yet the decoded bone's external parent is absent (the stored value is -1),
so presence in the decoded value is not equivalent to the flag bit. -/
theorem c3_counterexample :
    Reader.bone cfg1 dC3 0 = .ok (boneC3, 43) ∧
    leVal ((dC3.drop 25).take 2) = 8192 ∧
    Nat.testBit 8192 13 = true ∧
    boneC3.external_parent = none :=
  ⟨by rfl, by rfl, by rfl, by rfl⟩

/-- Claim C3 witness: the flag-gated tail `dEx` under flags 0x2000 decodes
with the external-parent bytes consumed but the value absent. -/
theorem c3_witness :
    boneEx.external_parent = none ∧ extPos cfg1 8192 0 = 12 := by
  have h := c3_bone_flag_gating cfg1 (.utf8 []) (.utf8 []) (0, 0, 0) none 0 8192
    dEx 0 boneEx 16 (by rfl)
  refine ⟨?_, by rfl⟩
  have h13 := h.2.2.2.2.2.1 (by rfl)
  rw [h13]
  rfl
